import Mathlib

/-!
# GLOSSA front end (`frontend_static/app.js`): polling controllers

A shallow embedding of the two client-side control loops of `app.js`:

* the speech-to-sign controller (`startSpeechToSign`, `stopSpeechToSign`,
  `pollSpeechRecognition`, module variable `pollInterval`), and
* the sign-to-text controller (`startInference`, `fetchRecognizedString`,
  `stopInference`, module variable `recognitionLoop`).

The browser is modelled as an event loop.  A state holds the two module
variables, the table of active interval timers, the number of HTTP requests
in flight for every `await fetch(...)` site, the properties of the DOM
elements the script writes, and a log of the effects performed so far.
An `async` function is split at its `await`: the part before it runs when
the function is called (or the timer fires), the part after it (`..._resume`)
runs when the response arrives.
-/

namespace Glossa

/-! ## Configuration -/

/-- The constant `API_URL` (speech server). -/
def API_URL : String := "http://localhost:5001"

/-- The constant `INFERENCE_API_URL` (sign server). -/
def INFERENCE_API_URL : String := "http://localhost:5002"

/-! ## Data model -/

/-- Which of the elements looked up with `document.getElementById` exist in the
page markup (`true`: the lookup returns an element, `false`: it returns `null`). -/
structure Page where
  speechRecognitionStatus : Bool
  signDisplayArea : Bool
  recognizedTextOutput : Bool
  startSpeechToSignBtn : Bool
  startInferenceBtn : Bool
  stopInferenceBtn : Bool
  recognizedStringDisplay : Bool
  OpenCVFrame : Bool
  deriving DecidableEq, Repr

/-- The function an interval timer invokes: the anonymous callback of
`pollSpeechRecognition`, or `fetchRecognizedString`. -/
inductive Callback where
  | pollSpeech
  | fetchRecognizedString
  deriving DecidableEq, Repr

/-- An active interval timer: the handle `setInterval` returned, its period in
milliseconds and its callback. -/
structure Timer where
  id : Nat
  period : Nat
  callback : Callback
  deriving DecidableEq, Repr

/-- Effects that leave no trace in the DOM properties, kept in order. -/
inductive Effect where
  | fetch (method : String) (url : String)
  | statusWrite (message : String) (isError : Bool)
  | consoleLog (message : String)
  | consoleError (message : String)
  | alert (message : String)
  | uncaught
  deriving DecidableEq, Repr

/-- The properties of the DOM elements that the script writes. -/
structure Dom where
  statusText : String
  statusColor : String
  speechBtnDisabled : Bool
  recognizedText : String
  signDisplayHTML : String
  startInferenceDisabled : Bool
  stopInferenceDisabled : Bool
  recognizedStringText : String
  frameSrc : String
  deriving DecidableEq, Repr

/-- Number of requests in flight, one counter for every `await fetch` site. -/
structure InFlight where
  startRecognition : Nat
  status : Nat
  startInference : Nat
  recognizedString : Nat
  stopInference : Nat
  deriving DecidableEq, Repr

/-- State of the page: module variables `pollInterval` and `recognitionLoop`
(`none` is `null`), the browser's interval timers, the requests in flight, the
DOM properties and the effect log. -/
structure State where
  pollInterval : Option Nat
  recognitionLoop : Option Nat
  timers : List Timer
  nextTimer : Nat
  inflight : InFlight
  dom : Dom
  log : List Effect
  deriving DecidableEq, Repr

/-- Body of `GET /status` as the poll callback reads it. -/
structure SpeechStatus where
  is_recognizing : Bool
  recognized_text : Option String
  current_word : Option String
  sign_image_url : Option String
  deriving DecidableEq, Repr

/-- Body of `GET /recognized_string` as `fetchRecognizedString` reads it. -/
structure SignStatus where
  recognized_string : String
  confirmation_string : Option String
  opencv_frame : Option String
  deriving DecidableEq, Repr

/-- Outcome of one awaited request.  `none` stands for a rejected `fetch` or a
body that `response.json()` cannot turn into an object; for
`startRecognition` the pair is `(response.ok, data.error)`; for
`startInference` the flag is `true` exactly when `fetch` resolved with
`response.ok`; for `stopInference` the flag is `true` exactly when `fetch`
resolved. -/
inductive Response where
  | startRecognition (r : Option (Bool × Option String))
  | status (r : Option SpeechStatus)
  | startInference (ok : Bool)
  | recognizedString (r : Option SignStatus)
  | stopInference (resolved : Bool)
  deriving DecidableEq, Repr

/-- What the event loop can run next: a call of one of the four entry points,
the firing of the interval timer with handle `h`, or the arrival of the
response to a request in flight. -/
inductive Event where
  | startSpeechToSign
  | stopSpeechToSign
  | startInference
  | stopInference
  | tick (h : Nat)
  | response (r : Response)
  deriving DecidableEq, Repr

/-! ## JavaScript and browser primitives -/

/-- Truthiness of an optional string: absent and `""` are falsy. -/
def truthy : Option String → Bool
  | some s => s != ""
  | none => false

/-- The expression `x || d` for an optional string `x`. -/
def orDefault (x : Option String) (d : String) : String :=
  match x with
  | some s => if s != "" then s else d
  | none => d

/-- String conversion inside a template literal or a `+`. -/
def jsToString : Option String → String
  | some s => s
  | none => "undefined"

/-- The browser's `clearInterval`: removes the timer with that handle, does
nothing for `null` or for a handle that is not active. -/
def clearInterval (h : Option Nat) (s : State) : State :=
  match h with
  | none => s
  | some i => { s with timers := s.timers.filter (fun t => t.id != i) }

/-- The browser's `setInterval`: registers a timer under a fresh handle.
Handles are positive integers, so a stored handle is truthy. -/
def setInterval (cb : Callback) (period : Nat) (s : State) : Nat × State :=
  (s.nextTimer,
   { s with timers := s.timers ++ [{ id := s.nextTimer, period := period, callback := cb }],
            nextTimer := s.nextTimer + 1 })

/-- Appends one effect to the log. -/
def emit (e : Effect) (s : State) : State :=
  { s with log := s.log ++ [e] }

/-- The page right after the script has been loaded. -/
def pageLoad (dom : Dom) : State :=
  { pollInterval := none, recognitionLoop := none, timers := [], nextTimer := 1,
    inflight := ⟨0, 0, 0, 0, 0⟩, dom := dom, log := [] }

/-! ## Speech to sign -/

/-- The markup written to `signDisplayArea.innerHTML` when a sign image is known. -/
def signImageHTML (url : String) (word : Option String) : String :=
  "<img src=\"" ++ API_URL ++ "/" ++ url ++ "\" alt=\"" ++ jsToString word ++
  "\" class=\"w-full h-auto max-w-sm rounded-lg shadow-xl mx-auto\" onerror=\"this.onerror=null; this.src='https://placehold.co/400x300/e0e0e0/555555?text=Image+Not+Found'\">"

/-- The markup written to `signDisplayArea.innerHTML` when no sign is known. -/
def noSignHTML (word : Option String) : String :=
  "<p class=\"text-gray-500 mt-4\">Word: \"" ++ jsToString word ++ "\" - No sign found yet.</p>"

/-- The function `updateStatus(message, isError)`. -/
def updateStatus (pg : Page) (message : String) (isError : Bool) (s : State) : State :=
  if pg.speechRecognitionStatus then
    emit (.statusWrite message isError)
      { s with dom := { s.dom with statusText := message,
                                   statusColor := if isError then "red" else "#2563eb" } }
  else s

/-- The guarded write `if (speechToSignBtn) speechToSignBtn.disabled = false`. -/
def enableSpeechBtn (pg : Page) (s : State) : State :=
  if pg.startSpeechToSignBtn then { s with dom := { s.dom with speechBtnDisabled := false } }
  else s

/-- The function `pollSpeechRecognition`: cancels the timer in `pollInterval`,
then stores a new 500 ms timer there. -/
def pollSpeechRecognition (s : State) : State :=
  let s1 := clearInterval s.pollInterval s
  let r := setInterval .pollSpeech 500 s1
  { r.2 with pollInterval := some r.1 }

/-- The function `startSpeechToSign` up to `await fetch(...)`. -/
def startSpeechToSign (pg : Page) (s : State) : State :=
  if !pg.startSpeechToSignBtn then s
  else
    let s1 := updateStatus pg "Connecting to Speech Server..." false s
    let s2 := { s1 with dom := { s1.dom with speechBtnDisabled := true } }
    let s3 := emit (.fetch "POST" (API_URL ++ "/start_recognition")) s2
    { s3 with inflight := { s3.inflight with startRecognition := s3.inflight.startRecognition + 1 } }

/-- The function `startSpeechToSign` from the arrival of the response on.  The
button exists here, the call passed `if (!speechToSignBtn) return`. -/
def startSpeechToSign_resume (pg : Page) (r : Option (Bool × Option String)) (s : State) : State :=
  match r with
  | some (true, _) =>
    pollSpeechRecognition (updateStatus pg "Listening... Please speak now." false s)
  | some (false, err) =>
    let s1 := updateStatus pg ("Error starting recognition: " ++ jsToString err) true s
    { s1 with dom := { s1.dom with speechBtnDisabled := false } }
  | none =>
    let s1 := updateStatus pg "Server error. Ensure server1.py (Port 5001) is running." true s
    let s2 := emit (.consoleError "Fetch error:") s1
    { s2 with dom := { s2.dom with speechBtnDisabled := false } }

/-- The function `stopSpeechToSign`. -/
def stopSpeechToSign (pg : Page) (s : State) : State :=
  let s1 := match s.pollInterval with
    | some h => { (clearInterval (some h) s) with pollInterval := none }
    | none => s
  updateStatus pg "Recognition Stopped." false (enableSpeechBtn pg s1)

/-- The interval callback of `pollSpeechRecognition` up to `await fetch(...)`. -/
def pollSpeech_tick (s : State) : State :=
  let s1 := emit (.fetch "GET" (API_URL ++ "/status")) s
  { s1 with inflight := { s1.inflight with status := s1.inflight.status + 1 } }

/-- The `catch` block of the interval callback. -/
def pollSpeech_catch (pg : Page) (s : State) : State :=
  let s1 := updateStatus pg "Connection lost. Server error." true s
  let s2 := emit (.consoleError "Polling error:") s1
  enableSpeechBtn pg (clearInterval s2.pollInterval s2)

/-- The interval callback of `pollSpeechRecognition` from the arrival of the
response on.  A write to an element that does not exist raises inside `try`
and continues in the `catch` block. -/
def pollSpeech_resume (pg : Page) (r : Option SpeechStatus) (s : State) : State :=
  match r with
  | none => pollSpeech_catch pg s
  | some data =>
    if data.is_recognizing then
      let s1 := updateStatus pg "Listening... Speak now." false s
      if !pg.recognizedTextOutput then pollSpeech_catch pg s1
      else
        let s2 := { s1 with dom := { s1.dom with
                      recognizedText := orDefault data.recognized_text "..." } }
        if truthy data.sign_image_url then
          if !pg.signDisplayArea then pollSpeech_catch pg s2
          else
            let html := signImageHTML (data.sign_image_url.getD "") data.current_word
            { s2 with dom := { s2.dom with signDisplayHTML := html } }
        else if truthy data.recognized_text then
          if !pg.signDisplayArea then pollSpeech_catch pg s2
          else { s2 with dom := { s2.dom with signDisplayHTML := noSignHTML data.current_word } }
        else s2
    else
      let s1 := updateStatus pg "Recognition Complete. Press Start to go again." false s
      if !pg.recognizedTextOutput then pollSpeech_catch pg s1
      else
        let s2 := { s1 with dom := { s1.dom with
                      recognizedText := orDefault data.recognized_text "..." } }
        let s3 := enableSpeechBtn pg (clearInterval s2.pollInterval s2)
        if truthy data.sign_image_url then
          if !pg.signDisplayArea then pollSpeech_catch pg s3
          else
            let html := signImageHTML (data.sign_image_url.getD "") data.current_word
            { s3 with dom := { s3.dom with signDisplayHTML := html } }
        else s3

/-! ## Sign to text -/

/-- The function `startInference` up to `await fetch(...)`. -/
def startInference (pg : Page) (s : State) : State :=
  if !pg.startInferenceBtn || !pg.stopInferenceBtn then s
  else
    let s1 := emit (.fetch "POST" (INFERENCE_API_URL ++ "/start_inference")) s
    { s1 with inflight := { s1.inflight with startInference := s1.inflight.startInference + 1 } }

/-- The function `startInference` from the arrival of the response on.  Every
failure (rejected `fetch`, status that is not ok) ends in the same `catch`
block; on success the new timer is stored in `recognitionLoop` without clearing
the handle stored there before. -/
def startInference_resume (ok : Bool) (s : State) : State :=
  if ok then
    let s1 := emit (.consoleLog "Inference thread requested on server.") s
    let s2 := { s1 with dom := { s1.dom with stopInferenceDisabled := false,
                                             startInferenceDisabled := true } }
    let r := setInterval .fetchRecognizedString 50 s2
    { r.2 with recognitionLoop := some r.1 }
  else
    emit (.alert "Could not connect to Sign Server (Port 5002) or inference is already running.")
      (emit (.consoleError "Failed to start inference on server:") s)

/-- The function `fetchRecognizedString` up to `await fetch(...)`. -/
def fetchRecognizedString_tick (s : State) : State :=
  let s1 := emit (.fetch "GET" (INFERENCE_API_URL ++ "/recognized_string")) s
  { s1 with inflight := { s1.inflight with recognizedString := s1.inflight.recognizedString + 1 } }

/-- The function `fetchRecognizedString` from the arrival of the response on.
In the `catch` block the two buttons are written without a null check, a
missing button raises out of the function. -/
def fetchRecognizedString_resume (pg : Page) (r : Option SignStatus) (s : State) : State :=
  match r with
  | some data =>
    let s1 := if pg.recognizedStringDisplay then
        { s with dom := { s.dom with recognizedStringText := data.recognized_string } }
      else s
    if pg.OpenCVFrame && truthy data.opencv_frame then
      let src := "data:image/jpeg;base64," ++ data.opencv_frame.getD ""
      { s1 with dom := { s1.dom with frameSrc := src } }
    else s1
  | none =>
    let s1 := emit (.consoleError "Error fetching recognized string. Server may have stopped:") s
    let s2 := clearInterval s1.recognitionLoop s1
    if !pg.startInferenceBtn then emit .uncaught s2
    else
      let s3 := { s2 with dom := { s2.dom with startInferenceDisabled := false } }
      if !pg.stopInferenceBtn then emit .uncaught s3
      else { s3 with dom := { s3.dom with stopInferenceDisabled := true } }

/-- The function `stopInference` up to `await fetch(...)`. -/
def stopInference (s : State) : State :=
  let s1 := clearInterval s.recognitionLoop s
  let s2 := emit (.fetch "POST" (INFERENCE_API_URL ++ "/stop_inference")) s1
  { s2 with inflight := { s2.inflight with stopInference := s2.inflight.stopInference + 1 } }

/-- The function `stopInference` from the settling of the request on. -/
def stopInference_resume (pg : Page) (resolved : Bool) (s : State) : State :=
  let s1 := if resolved then emit (.consoleLog "Inference thread stop requested on server.") s
    else emit (.consoleError "Failed to communicate stop to server:") s
  let s2 := if pg.stopInferenceBtn then
      { s1 with dom := { s1.dom with stopInferenceDisabled := true } } else s1
  if pg.startInferenceBtn then
    { s2 with dom := { s2.dom with startInferenceDisabled := false } } else s2

/-! ## The event loop -/

/-- One turn of the event loop.  A timer that is not active does not fire and a
response with no matching request in flight does not arrive: such events leave
the state unchanged. -/
def step (pg : Page) (s : State) : Event → State
  | .startSpeechToSign => startSpeechToSign pg s
  | .stopSpeechToSign => stopSpeechToSign pg s
  | .startInference => startInference pg s
  | .stopInference => stopInference s
  | .tick h =>
    match s.timers.find? (fun t => t.id == h) with
    | some t =>
      match t.callback with
      | .pollSpeech => pollSpeech_tick s
      | .fetchRecognizedString => fetchRecognizedString_tick s
    | none => s
  | .response (.startRecognition r) =>
    if s.inflight.startRecognition = 0 then s
    else startSpeechToSign_resume pg r
      { s with inflight := { s.inflight with startRecognition := s.inflight.startRecognition - 1 } }
  | .response (.status r) =>
    if s.inflight.status = 0 then s
    else pollSpeech_resume pg r
      { s with inflight := { s.inflight with status := s.inflight.status - 1 } }
  | .response (.startInference ok) =>
    if s.inflight.startInference = 0 then s
    else startInference_resume ok
      { s with inflight := { s.inflight with startInference := s.inflight.startInference - 1 } }
  | .response (.recognizedString r) =>
    if s.inflight.recognizedString = 0 then s
    else fetchRecognizedString_resume pg r
      { s with inflight := { s.inflight with recognizedString := s.inflight.recognizedString - 1 } }
  | .response (.stopInference resolved) =>
    if s.inflight.stopInference = 0 then s
    else stopInference_resume pg resolved
      { s with inflight := { s.inflight with stopInference := s.inflight.stopInference - 1 } }

/-- Runs a sequence of events, oldest first. -/
def run (pg : Page) (s : State) (evs : List Event) : State :=
  evs.foldl (step pg) s

/-- A page with every element present. -/
def fullPage : Page := ⟨true, true, true, true, true, true, true, true⟩

/-- DOM properties of a freshly loaded page: empty regions, start buttons
enabled, stop button disabled. -/
def freshDom : Dom :=
  { statusText := "", statusColor := "", speechBtnDisabled := false, recognizedText := "",
    signDisplayHTML := "", startInferenceDisabled := false, stopInferenceDisabled := true,
    recognizedStringText := "", frameSrc := "" }

/-- Active timers whose callback is `cb`. -/
def timersOf (cb : Callback) (s : State) : List Timer :=
  s.timers.filter (fun t => t.callback == cb)

/-- No request is in flight. -/
def quiescent (s : State) : Bool :=
  s.inflight.startRecognition == 0 && s.inflight.status == 0 &&
  s.inflight.startInference == 0 && s.inflight.recognizedString == 0 &&
  s.inflight.stopInference == 0

/-- The state with the effect log erased: module variables, timers, requests
in flight and DOM properties. -/
def visible (s : State) : State := { s with log := [] }

/-- A polling state of the speech controller on a full page: started, start
accepted, first poll request in flight. -/
def speechPollingState : State :=
  run fullPage (pageLoad freshDom)
    [.startSpeechToSign, .response (.startRecognition (some (true, none))), .tick 1]

/-- The events of successive speech polls on timer `h`, each answered before
the next tick. -/
def pollRounds (h : Nat) : List SpeechStatus → List Event
  | [] => []
  | d :: ds => .tick h :: .response (.status (some d)) :: pollRounds h ds

/-- The events of successive sign polls on timer `h`, each answered with a body
before the next tick. -/
def fetchRounds (h : Nat) : List SignStatus → List Event
  | [] => []
  | d :: ds => .tick h :: .response (.recognizedString (some d)) :: fetchRounds h ds

/-- The effects `l` repeated `n` times. -/
def repeatLog (l : List Effect) : Nat → List Effect
  | 0 => []
  | n + 1 => l ++ repeatLog l n

/-! ## The control part of the state -/

/-- The control part of the state: module variables, timers, requests in flight
and the `disabled` flags of the three buttons. -/
structure Core where
  pollInterval : Option Nat
  recognitionLoop : Option Nat
  timers : List Timer
  nextTimer : Nat
  inflight : InFlight
  speechBtnDisabled : Bool
  startInferenceDisabled : Bool
  stopInferenceDisabled : Bool
  deriving DecidableEq, Repr

/-- Projection of a state on its control part. -/
def core (s : State) : Core :=
  { pollInterval := s.pollInterval, recognitionLoop := s.recognitionLoop, timers := s.timers,
    nextTimer := s.nextTimer, inflight := s.inflight,
    speechBtnDisabled := s.dom.speechBtnDisabled,
    startInferenceDisabled := s.dom.startInferenceDisabled,
    stopInferenceDisabled := s.dom.stopInferenceDisabled }

/-- Effect of `clearInterval h` on the control part. -/
def Core.clear (h : Option Nat) (c : Core) : Core :=
  { c with timers := c.timers.filter (fun t => h != some t.id) }

/-- Effect of `if (speechToSignBtn) speechToSignBtn.disabled = false`. -/
def Core.enableSpeech (pg : Page) (c : Core) : Core :=
  if pg.startSpeechToSignBtn then { c with speechBtnDisabled := false } else c

/-- Effect of `pollSpeechRecognition` on the control part. -/
def Core.pollStarted (c : Core) : Core :=
  { c with timers := (c.clear c.pollInterval).timers ++ [⟨c.nextTimer, 500, .pollSpeech⟩],
           nextTimer := c.nextTimer + 1, pollInterval := some c.nextTimer }

/-- Effect of the success path of `startInference` on the control part. -/
def Core.inferenceStarted (c : Core) : Core :=
  { c with timers := c.timers ++ [⟨c.nextTimer, 50, .fetchRecognizedString⟩],
           nextTimer := c.nextTimer + 1, recognitionLoop := some c.nextTimer,
           stopInferenceDisabled := false, startInferenceDisabled := true }

/-- Effect of the `catch` block of `fetchRecognizedString` on the control part. -/
def Core.fetchFailed (pg : Page) (c : Core) : Core :=
  let c1 := c.clear c.recognitionLoop
  if !pg.startInferenceBtn then c1
  else
    let c2 := { c1 with startInferenceDisabled := false }
    if !pg.stopInferenceBtn then c2 else { c2 with stopInferenceDisabled := true }

/-- Effect of the end of `stopInference` on the control part. -/
def Core.stopSettled (pg : Page) (c : Core) : Core :=
  let c1 := if pg.stopInferenceBtn then { c with stopInferenceDisabled := true } else c
  if pg.startInferenceBtn then { c1 with startInferenceDisabled := false } else c1

/-- The control parts an event can lead to, over all payloads of a response. -/
def outcomes (pg : Page) (c : Core) : Event → List Core
  | .startSpeechToSign =>
    if pg.startSpeechToSignBtn then
      [{ c with speechBtnDisabled := true,
                inflight := { c.inflight with
                  startRecognition := c.inflight.startRecognition + 1 } }]
    else [c]
  | .stopSpeechToSign =>
    [{ (Core.enableSpeech pg (c.clear c.pollInterval)) with pollInterval := none }]
  | .startInference =>
    if pg.startInferenceBtn && pg.stopInferenceBtn then
      [{ c with inflight := { c.inflight with
                  startInference := c.inflight.startInference + 1 } }]
    else [c]
  | .stopInference =>
    [{ (c.clear c.recognitionLoop) with
        inflight := { c.inflight with stopInference := c.inflight.stopInference + 1 } }]
  | .tick h =>
    match c.timers.find? (fun t => t.id == h) with
    | some t =>
      match t.callback with
      | .pollSpeech => [{ c with inflight := { c.inflight with status := c.inflight.status + 1 } }]
      | .fetchRecognizedString =>
        [{ c with inflight := { c.inflight with
                    recognizedString := c.inflight.recognizedString + 1 } }]
    | none => [c]
  | .response (.startRecognition _) =>
    if c.inflight.startRecognition = 0 then [c]
    else
      let c0 := { c with inflight := { c.inflight with
                    startRecognition := c.inflight.startRecognition - 1 } }
      [c0.pollStarted, { c0 with speechBtnDisabled := false }]
  | .response (.status _) =>
    if c.inflight.status = 0 then [c]
    else
      let c0 := { c with inflight := { c.inflight with status := c.inflight.status - 1 } }
      [c0, Core.enableSpeech pg (c0.clear c0.pollInterval)]
  | .response (.startInference _) =>
    if c.inflight.startInference = 0 then [c]
    else
      let c0 := { c with inflight := { c.inflight with
                    startInference := c.inflight.startInference - 1 } }
      [c0.inferenceStarted, c0]
  | .response (.recognizedString _) =>
    if c.inflight.recognizedString = 0 then [c]
    else
      let c0 := { c with inflight := { c.inflight with
                    recognizedString := c.inflight.recognizedString - 1 } }
      [c0, c0.fetchFailed pg]
  | .response (.stopInference _) =>
    if c.inflight.stopInference = 0 then [c]
    else
      let c0 := { c with inflight := { c.inflight with
                    stopInference := c.inflight.stopInference - 1 } }
      [c0.stopSettled pg]

/-- The two controllers. -/
inductive Controller where
  | speech
  | sign
  deriving DecidableEq, Repr

/-- The controller an event belongs to: the controller of the called function,
of the callback of the firing timer, or of the function that awaits the
response.  A timer that is not active belongs to none. -/
def Event.controller (s : State) : Event → Option Controller
  | .startSpeechToSign => some .speech
  | .stopSpeechToSign => some .speech
  | .startInference => some .sign
  | .stopInference => some .sign
  | .tick h =>
    match s.timers.find? (fun t => t.id == h) with
    | some t =>
      match t.callback with
      | .pollSpeech => some .speech
      | .fetchRecognizedString => some .sign
    | none => none
  | .response (.startRecognition _) => some .speech
  | .response (.status _) => some .speech
  | .response (.startInference _) => some .sign
  | .response (.recognizedString _) => some .sign
  | .response (.stopInference _) => some .sign

/-- State of the speech controller: `pollInterval`, its active timers, its
requests in flight, its start button, the status text and colour, the
recognized-text region and the sign display area. -/
structure SpeechView where
  pollInterval : Option Nat
  timers : List Timer
  startRecognition : Nat
  status : Nat
  speechBtnDisabled : Bool
  statusText : String
  statusColor : String
  recognizedText : String
  signDisplayHTML : String
  deriving DecidableEq, Repr

/-- State of the sign controller: `recognitionLoop`, its active timers, its
requests in flight, its two buttons, the recognized-string display and the
live frame. -/
structure SignView where
  recognitionLoop : Option Nat
  timers : List Timer
  startInference : Nat
  recognizedString : Nat
  stopInference : Nat
  startInferenceDisabled : Bool
  stopInferenceDisabled : Bool
  recognizedStringText : String
  frameSrc : String
  deriving DecidableEq, Repr

/-- Projection of a state on the speech controller. -/
def speechView (s : State) : SpeechView :=
  { pollInterval := s.pollInterval, timers := timersOf .pollSpeech s,
    startRecognition := s.inflight.startRecognition, status := s.inflight.status,
    speechBtnDisabled := s.dom.speechBtnDisabled, statusText := s.dom.statusText,
    statusColor := s.dom.statusColor, recognizedText := s.dom.recognizedText,
    signDisplayHTML := s.dom.signDisplayHTML }

/-- Projection of a state on the sign controller. -/
def signView (s : State) : SignView :=
  { recognitionLoop := s.recognitionLoop, timers := timersOf .fetchRecognizedString s,
    startInference := s.inflight.startInference,
    recognizedString := s.inflight.recognizedString,
    stopInference := s.inflight.stopInference,
    startInferenceDisabled := s.dom.startInferenceDisabled,
    stopInferenceDisabled := s.dom.stopInferenceDisabled,
    recognizedStringText := s.dom.recognizedStringText, frameSrc := s.dom.frameSrc }

/-! ## Disciplined runs -/

/-- The timers of `l` whose callback is `cb`. -/
def ofKind (cb : Callback) (l : List Timer) : List Timer :=
  l.filter (fun t => t.callback == cb)

/-- Calls the discipline admits in state `s`: `startSpeechToSign` and
`startInference` only while their controller has no active timer and, for the
speech controller, no request in flight, for the sign controller, no start or
stop request in flight; `stopSpeechToSign` and `stopInference` only while no
start request of their controller is in flight.  Ticks and responses are
always admitted. -/
def allowed (s : State) : Event → Bool
  | .startSpeechToSign =>
    (ofKind .pollSpeech s.timers).isEmpty && s.inflight.startRecognition == 0 &&
      s.inflight.status == 0
  | .stopSpeechToSign => s.inflight.startRecognition == 0
  | .startInference =>
    (ofKind .fetchRecognizedString s.timers).isEmpty && s.inflight.startInference == 0 &&
      s.inflight.stopInference == 0
  | .stopInference => s.inflight.startInference == 0
  | .tick _ => true
  | .response _ => true

/-- Every call in the run `evs` from `s` is admitted at the moment it is made. -/
def disciplined (pg : Page) : State → List Event → Bool
  | _, [] => true
  | s, e :: es => allowed s e && disciplined pg (step pg s e) es

/-- What a disciplined run keeps true of the speech controller: every active
speech timer is the one `pollInterval` refers to; while a start request is in
flight it is the only speech request, no speech timer is active and the start
button is disabled; otherwise the start button is disabled exactly when a
speech timer is active. -/
structure SpeechInv (pg : Page) (c : Core) : Prop where
  shape : ∀ t ∈ ofKind .pollSpeech c.timers, c.pollInterval = some t.id
  absent : pg.startSpeechToSignBtn = false →
    c.inflight.startRecognition = 0 ∧ c.inflight.status = 0 ∧
    ofKind .pollSpeech c.timers = [] ∧ c.speechBtnDisabled = false
  starting : c.inflight.startRecognition ≠ 0 →
    c.inflight.startRecognition = 1 ∧ c.inflight.status = 0 ∧
    ofKind .pollSpeech c.timers = [] ∧ c.speechBtnDisabled = true
  settled : c.inflight.startRecognition = 0 →
    (c.speechBtnDisabled = true ↔ ofKind .pollSpeech c.timers ≠ [])

/-- What a disciplined run keeps true of the sign controller: every active sign
timer is the one `recognitionLoop` refers to; while a start request is in
flight no stop request is, no sign timer is active and the start button is
enabled; otherwise an active sign timer means a disabled start button and no
stop request in flight, and no sign timer and no stop request in flight mean an
enabled start button. -/
structure SignInv (pg : Page) (c : Core) : Prop where
  shape : ∀ t ∈ ofKind .fetchRecognizedString c.timers, c.recognitionLoop = some t.id
  absent : (pg.startInferenceBtn && pg.stopInferenceBtn) = false →
    c.inflight.startInference = 0 ∧ c.inflight.recognizedString = 0 ∧
    ofKind .fetchRecognizedString c.timers = [] ∧ c.startInferenceDisabled = false
  starting : c.inflight.startInference ≠ 0 →
    c.inflight.startInference = 1 ∧ c.inflight.stopInference = 0 ∧
    ofKind .fetchRecognizedString c.timers = [] ∧ c.startInferenceDisabled = false
  settled : c.inflight.startInference = 0 →
    (ofKind .fetchRecognizedString c.timers ≠ [] →
      c.startInferenceDisabled = true ∧ c.inflight.stopInference = 0) ∧
    (ofKind .fetchRecognizedString c.timers = [] → c.inflight.stopInference = 0 →
      c.startInferenceDisabled = false)

/-- At most one speech timer is active, and it is the one in `pollInterval`. -/
def SpeechOne (c : Core) : Prop :=
  ofKind .pollSpeech c.timers = [] ∨
  ∃ h, c.pollInterval = some h ∧ ofKind .pollSpeech c.timers = [⟨h, 500, .pollSpeech⟩]

/-! ## Basic facts about the primitives -/

theorem run_append (pg : Page) (s : State) (es fs : List Event) :
    run pg s (es ++ fs) = run pg (run pg s es) fs := by
  simp [run, List.foldl_append]

theorem count_repeatLog (a : Effect) (l : List Effect) (n : Nat) :
    List.count a (repeatLog l n) = n * List.count a l := by
  induction n with
  | zero => simp [repeatLog]
  | succ n ih => simp [repeatLog, List.count_append, ih]; ring

theorem bne_some_some (x i : Nat) : ((some i : Option Nat) != some x) = (x != i) := by
  rw [Bool.eq_iff_iff]
  simp only [bne_iff_ne, ne_eq, Option.some.injEq]
  exact ⟨fun h1 h2 => h1 h2.symm, fun h1 h2 => h1 h2.symm⟩

theorem clearInterval_eq (h : Option Nat) (s : State) :
    clearInterval h s = { s with timers := s.timers.filter (fun t => h != some t.id) } := by
  cases h with
  | none =>
    have hf : s.timers.filter (fun t => (none : Option Nat) != some t.id) = s.timers := by
      rw [List.filter_eq_self]; intro a _; rfl
    simp only [clearInterval, hf]
  | some i =>
    simp only [clearInterval, bne_some_some]

theorem clearInterval_timers (h : Option Nat) (s : State) :
    (clearInterval h s).timers = s.timers.filter (fun t => h != some t.id) := by
  rw [clearInterval_eq]

/-! ## C1: mutual exclusion -/

/-- C1 (sign controller, failing input): two calls of `startInference` whose
requests both succeed leave two interval timers of `fetchRecognizedString`
active at once; `recognitionLoop` refers to the second one only, the first was
not cancelled before the new poll loop was started. -/
theorem startInference_twice_two_active_timers :
    (let s := run fullPage (pageLoad freshDom)
        [.startInference, .startInference, .response (.startInference true),
         .response (.startInference true)]
     timersOf .fetchRecognizedString s =
        [⟨1, 50, .fetchRecognizedString⟩, ⟨2, 50, .fetchRecognizedString⟩] ∧
      s.recognitionLoop = some 2) := by
  decide

/-! ## C5: a rejected speech start is surfaced -/

/-- C5: when `startSpeechToSign` is called and `/start_recognition` answers with
a status that is not ok and the body `{error: e}`, the status area shows
`'Error starting recognition: ' + e` in red, the start button is enabled, and
no timer was created: `pollInterval`, the timer table and the handle counter
are unchanged and the only effects are two status writes and the request. -/
theorem startSpeechToSign_rejection_surfaced (pg : Page) (s : State) (e : String)
    (hbtn : pg.startSpeechToSignBtn = true) (hst : pg.speechRecognitionStatus = true) :
    (let s' := run pg s [.startSpeechToSign, .response (.startRecognition (some (false, some e)))]
     s'.dom.statusText = "Error starting recognition: " ++ e ∧
     s'.dom.statusColor = "red" ∧
     s'.dom.speechBtnDisabled = false ∧
     s'.pollInterval = s.pollInterval ∧ s'.timers = s.timers ∧ s'.nextTimer = s.nextTimer ∧
     s'.inflight = s.inflight ∧
     s'.log = s.log ++ [.statusWrite "Connecting to Speech Server..." false,
        .fetch "POST" (API_URL ++ "/start_recognition"),
        .statusWrite ("Error starting recognition: " ++ e) true]) := by
  simp [run, step, startSpeechToSign, startSpeechToSign_resume, updateStatus, emit, hbtn, hst,
    jsToString]

/-- C5 at the scripted case: HTTP 500 with `{error: "busy"}` on a full page. -/
theorem startSpeechToSign_rejection_surfaced_busy :
    fullPage.startSpeechToSignBtn = true ∧ fullPage.speechRecognitionStatus = true ∧
    (run fullPage (pageLoad freshDom)
      [.startSpeechToSign, .response (.startRecognition (some (false, some "busy")))]).dom.statusText
      = "Error starting recognition: " ++ "busy" ∧
    (run fullPage (pageLoad freshDom)
      [.startSpeechToSign, .response (.startRecognition (some (false, some "busy")))]).timers
      = [] :=
  ⟨rfl, rfl,
   (startSpeechToSign_rejection_surfaced fullPage (pageLoad freshDom) "busy" rfl rfl).1,
   (startSpeechToSign_rejection_surfaced fullPage (pageLoad freshDom) "busy" rfl rfl).2.2.2.2.1⟩

/-! ## C6: stopping twice -/

/-- Stopping twice gives the state of stopping once: from every state,
`stopSpeechToSign` called twice leaves the same timers, module variables,
requests in flight and DOM properties as one call; the same holds for
`stopInference` with both calls settled, whatever the two outcomes;
`clearInterval(null)` does nothing and cancelling a handle again does nothing
more.  Whether a timer is still active in that state is a separate matter. -/
theorem stop_twice_eq_stop_once (pg : Page) (s : State) (o1 o2 : Bool) :
    visible (run pg s [.stopSpeechToSign, .stopSpeechToSign]) =
      visible (run pg s [.stopSpeechToSign]) ∧
    visible (run pg s [.stopInference, .response (.stopInference o1), .stopInference,
        .response (.stopInference o2)]) =
      visible (run pg s [.stopInference, .response (.stopInference o1)]) ∧
    clearInterval none s = s ∧
    ∀ h, clearInterval h (clearInterval h s) = clearInterval h s := by
  obtain ⟨pi, rl, ts, nt, fl, dom, lg⟩ := s
  refine ⟨?_, ?_, rfl, ?_⟩
  · cases pi <;> cases h1 : pg.speechRecognitionStatus <;>
      cases h2 : pg.startSpeechToSignBtn <;>
      simp [run, step, stopSpeechToSign, updateStatus, emit, enableSpeechBtn, visible,
        clearInterval, h1, h2, List.filter_filter]
  · cases rl <;> cases h1 : pg.startInferenceBtn <;>
      cases h2 : pg.stopInferenceBtn <;> cases o1 <;> cases o2 <;>
      simp [run, step, stopInference, stopInference_resume, emit, visible, clearInterval, h1, h2,
        List.filter_filter]
  · intro h
    cases h <;> simp [clearInterval, List.filter_filter]

/-- C6 (sign controller, failing input): two calls of `startInference` are both
accepted, then `stopInference` is called and settles, once or twice.  In both
end states the timer with handle 1 is still active, with the start button
enabled, the stop button disabled and no request in flight: the poll-timer
status is not "none active".  `stopInference` cancels only the handle stored
last, the first timer was lost when `startInference` overwrote
`recognitionLoop`. -/
theorem stopInference_twice_leaves_first_timer_active :
    (let s := run fullPage (pageLoad freshDom)
        [.startInference, .startInference, .response (.startInference true),
         .response (.startInference true)]
     let once := run fullPage s [.stopInference, .response (.stopInference true)]
     let twice := run fullPage once [.stopInference, .response (.stopInference true)]
     s.timers = [⟨1, 50, .fetchRecognizedString⟩, ⟨2, 50, .fetchRecognizedString⟩] ∧
     once.timers = [⟨1, 50, .fetchRecognizedString⟩] ∧
     twice.timers = [⟨1, 50, .fetchRecognizedString⟩] ∧
     twice.recognitionLoop = some 2 ∧
     twice.dom.startInferenceDisabled = false ∧ twice.dom.stopInferenceDisabled = true ∧
     quiescent twice = true ∧
     (step fullPage twice (.tick 1)).inflight.recognizedString = 1) := by
  decide

/-! ## C7: rendering while recognition is in progress -/

/-- C7 (counterexample): a poll shows the sign image of "hello"; the next poll
answers `is_recognizing = true` with neither `sign_image_url` nor
`recognized_text`.  The sign display area still holds the image, it is not set
to the "no sign yet" placeholder. -/
theorem pollSpeech_in_progress_without_text_keeps_sign_area :
    (let s1 := step fullPage speechPollingState
        (.response (.status (some ⟨true, some "hello", some "hello", some "static/hello.png"⟩)))
     let s2 := step fullPage (step fullPage s1 (.tick 1))
        (.response (.status (some ⟨true, none, none, none⟩)))
     s2.dom.signDisplayHTML = signImageHTML "static/hello.png" (some "hello") ∧
     s2.dom.signDisplayHTML ≠ noSignHTML none) := by
  set_option maxRecDepth 100000 in decide

/-- C7 (amended): for every payload with `is_recognizing = true`, on a page that
has the recognized-text region and the sign display area, the poll callback
sets the recognized-text region to `recognized_text`, or to `'...'` when that
is empty or absent; it sets the sign display area to the image markup when
`sign_image_url` is present and not empty, to the "no sign found yet"
placeholder when there is no such url and `recognized_text` is not empty, and
leaves the area as it was when both are empty or absent.  Timers,
`pollInterval` and the start button are unchanged. -/
theorem pollSpeech_in_progress_render (pg : Page) (s : State) (d : SpeechStatus)
    (hrec : d.is_recognizing = true) (hout : pg.recognizedTextOutput = true)
    (harea : pg.signDisplayArea = true) :
    (let s' := pollSpeech_resume pg (some d) s
     s'.dom.recognizedText =
        (match d.recognized_text with
         | some t => if t = "" then "..." else t
         | none => "...") ∧
     (∀ u, d.sign_image_url = some u → u ≠ "" →
        s'.dom.signDisplayHTML = signImageHTML u d.current_word) ∧
     (truthy d.sign_image_url = false → truthy d.recognized_text = true →
        s'.dom.signDisplayHTML = noSignHTML d.current_word) ∧
     (truthy d.sign_image_url = false → truthy d.recognized_text = false →
        s'.dom.signDisplayHTML = s.dom.signDisplayHTML) ∧
     s'.timers = s.timers ∧ s'.pollInterval = s.pollInterval ∧ s'.nextTimer = s.nextTimer ∧
     s'.dom.speechBtnDisabled = s.dom.speechBtnDisabled) := by
  obtain ⟨rec, txt, word, url⟩ := d
  simp only at hrec
  subst hrec
  cases h1 : pg.speechRecognitionStatus <;> rcases url with _ | u <;> rcases txt with _ | t
  all_goals first
    | (by_cases hu : u = "" <;> by_cases ht : t = "" <;>
        simp [pollSpeech_resume, updateStatus, emit, hout, harea, truthy, orDefault, h1, hu, ht])
    | (by_cases hu : u = "" <;>
        simp [pollSpeech_resume, updateStatus, emit, hout, harea, truthy, orDefault, h1, hu])
    | (by_cases ht : t = "" <;>
        simp [pollSpeech_resume, updateStatus, emit, hout, harea, truthy, orDefault, h1, ht])
    | simp [pollSpeech_resume, updateStatus, emit, hout, harea, truthy, orDefault, h1]

/-- C7 (amended) at a concrete payload: text without a sign image gives the
placeholder for the current word. -/
theorem pollSpeech_in_progress_render_hello :
    fullPage.recognizedTextOutput = true ∧ fullPage.signDisplayArea = true ∧
    (pollSpeech_resume fullPage (some ⟨true, some "hello", some "hello", none⟩)
      speechPollingState).dom.signDisplayHTML = noSignHTML (some "hello") :=
  ⟨rfl, rfl,
   (pollSpeech_in_progress_render fullPage speechPollingState
      ⟨true, some "hello", some "hello", none⟩ rfl rfl rfl).2.2.1 rfl rfl⟩

/-! ## C9: stopping the sign controller -/

/-- C9: on a page with both inference buttons, from every state and for every
outcome of `POST /stop_inference`, the call of `stopInference` removes the
timer `recognitionLoop` refers to; when the request settles the stop button is
disabled and the start button enabled, the timers are untouched, the only
effects are the request and one console line (nothing is raised), and the
state is the one a successful request gives, up to the log.  The part after
the `await` gives these button values from whatever state it resumes in. -/
theorem stopInference_unconditional (pg : Page) (s : State) (resolved : Bool)
    (hstart : pg.startInferenceBtn = true) (hstop : pg.stopInferenceBtn = true) :
    (let s1 := step pg s .stopInference
     let s2 := step pg s1 (.response (.stopInference resolved))
     s1.timers = s.timers.filter (fun t => s.recognitionLoop != some t.id) ∧
     s2.timers = s1.timers ∧
     s2.dom.stopInferenceDisabled = true ∧ s2.dom.startInferenceDisabled = false ∧
     s2.log = s.log ++ [.fetch "POST" (INFERENCE_API_URL ++ "/stop_inference"),
        if resolved then .consoleLog "Inference thread stop requested on server."
        else .consoleError "Failed to communicate stop to server:"] ∧
     visible s2 = visible (step pg s1 (.response (.stopInference true)))) ∧
    (∀ s' : State,
      (stopInference_resume pg resolved s').dom.stopInferenceDisabled = true ∧
      (stopInference_resume pg resolved s').dom.startInferenceDisabled = false ∧
      (stopInference_resume pg resolved s').timers = s'.timers ∧
      Effect.uncaught ∉ (stopInference_resume pg resolved s').log.drop s'.log.length) := by
  refine ⟨?_, ?_⟩
  · refine ⟨?_, ?_⟩
    · simp [step, stopInference, emit, clearInterval_eq]
    · cases resolved <;>
        simp [step, stopInference, stopInference_resume, emit, visible, hstart, hstop,
          clearInterval_eq]
  · intro s'
    cases resolved <;> simp [stopInference_resume, emit, hstart, hstop]

/-- C9 at a concrete input: the sign controller is polling and the stop request
is rejected. -/
theorem stopInference_unconditional_rejected :
    fullPage.startInferenceBtn = true ∧ fullPage.stopInferenceBtn = true ∧
    (run fullPage (pageLoad freshDom)
      [.startInference, .response (.startInference true), .stopInference,
       .response (.stopInference false)]).dom.startInferenceDisabled = false :=
  ⟨rfl, rfl,
   (stopInference_unconditional fullPage
      (run fullPage (pageLoad freshDom) [.startInference, .response (.startInference true)])
      false rfl rfl).1.2.2.2.1⟩

/-! ## C3: completion detection of the speech controller -/

theorem pollRound_in_progress (pg : Page) (h : Nat)
    (hout : pg.recognizedTextOutput = true) (harea : pg.signDisplayArea = true)
    (hst : pg.speechRecognitionStatus = true)
    (d : SpeechStatus) (hd : d.is_recognizing = true)
    (s : State) (hs : s.timers = [⟨h, 500, .pollSpeech⟩]) :
    (run pg s [.tick h, .response (.status (some d))]).timers = s.timers ∧
    (run pg s [.tick h, .response (.status (some d))]).pollInterval = s.pollInterval ∧
    (run pg s [.tick h, .response (.status (some d))]).inflight = s.inflight ∧
    (run pg s [.tick h, .response (.status (some d))]).dom.speechBtnDisabled
      = s.dom.speechBtnDisabled ∧
    (run pg s [.tick h, .response (.status (some d))]).log = s.log ++
      [.fetch "GET" (API_URL ++ "/status"), .statusWrite "Listening... Speak now." false] := by
  obtain ⟨rec, txt, word, url⟩ := d
  simp only at hd
  subst hd
  rcases url with _ | u <;> rcases txt with _ | t
  all_goals first
    | (by_cases hu : u = "" <;> by_cases ht : t = "" <;>
        simp [run, step, hs, pollSpeech_tick, pollSpeech_resume, updateStatus, emit, hout, harea,
          truthy, orDefault, hst, hu, ht])
    | (by_cases hu : u = "" <;>
        simp [run, step, hs, pollSpeech_tick, pollSpeech_resume, updateStatus, emit, hout, harea,
          truthy, orDefault, hst, hu])
    | (by_cases ht : t = "" <;>
        simp [run, step, hs, pollSpeech_tick, pollSpeech_resume, updateStatus, emit, hout, harea,
          truthy, orDefault, hst, ht])
    | simp [run, step, hs, pollSpeech_tick, pollSpeech_resume, updateStatus, emit, hout, harea,
          truthy, orDefault, hst]

theorem pollRounds_in_progress (pg : Page) (h : Nat)
    (hout : pg.recognizedTextOutput = true) (harea : pg.signDisplayArea = true)
    (hst : pg.speechRecognitionStatus = true)
    (ps : List SpeechStatus) (hps : ∀ p ∈ ps, p.is_recognizing = true) :
    ∀ s : State, s.timers = [⟨h, 500, .pollSpeech⟩] →
      (run pg s (pollRounds h ps)).timers = s.timers ∧
      (run pg s (pollRounds h ps)).pollInterval = s.pollInterval ∧
      (run pg s (pollRounds h ps)).inflight = s.inflight ∧
      (run pg s (pollRounds h ps)).dom.speechBtnDisabled = s.dom.speechBtnDisabled ∧
      (run pg s (pollRounds h ps)).log = s.log ++
        repeatLog [.fetch "GET" (API_URL ++ "/status"),
          .statusWrite "Listening... Speak now." false] ps.length := by
  induction ps with
  | nil => intro s _; simp [pollRounds, run, repeatLog]
  | cons d ds ih =>
    intro s hs
    have hd : d.is_recognizing = true := hps d (List.mem_cons_self _ _)
    obtain ⟨h1, h2, h3, h4, h5⟩ := pollRound_in_progress pg h hout harea hst d hd s hs
    obtain ⟨i1, i2, i3, i4, i5⟩ := ih (fun p hp => hps p (List.mem_cons_of_mem _ hp))
      (run pg s [.tick h, .response (.status (some d))]) (h1.trans hs)
    have hrun : run pg s (pollRounds h (d :: ds)) =
        run pg (run pg s [.tick h, .response (.status (some d))]) (pollRounds h ds) := rfl
    rw [hrun]
    refine ⟨i1.trans h1, i2.trans h2, i3.trans h3, i4.trans h4, ?_⟩
    rw [i5, h5]
    simp [repeatLog]

theorem pollRound_complete (pg : Page) (h : Nat)
    (hbtn : pg.startSpeechToSignBtn = true)
    (hout : pg.recognizedTextOutput = true) (harea : pg.signDisplayArea = true)
    (hst : pg.speechRecognitionStatus = true)
    (q : SpeechStatus) (hq : q.is_recognizing = false)
    (s : State) (hs : s.timers = [⟨h, 500, .pollSpeech⟩]) (hp : s.pollInterval = some h) :
    (run pg s [.tick h, .response (.status (some q))]).timers = [] ∧
    (run pg s [.tick h, .response (.status (some q))]).inflight = s.inflight ∧
    (run pg s [.tick h, .response (.status (some q))]).dom.speechBtnDisabled = false ∧
    (run pg s [.tick h, .response (.status (some q))]).dom.statusText
      = "Recognition Complete. Press Start to go again." ∧
    (run pg s [.tick h, .response (.status (some q))]).dom.recognizedText
      = orDefault q.recognized_text "..." ∧
    (run pg s [.tick h, .response (.status (some q))]).log = s.log ++
      [.fetch "GET" (API_URL ++ "/status"),
       .statusWrite "Recognition Complete. Press Start to go again." false] := by
  obtain ⟨rec, txt, word, url⟩ := q
  simp only at hq
  subst hq
  rcases url with _ | u
  · simp [run, step, hs, hp, pollSpeech_tick, pollSpeech_resume, updateStatus, emit, hout,
      truthy, hst, hbtn, enableSpeechBtn, clearInterval]
  · by_cases hu : u = "" <;>
      simp [run, step, hs, hp, pollSpeech_tick, pollSpeech_resume, updateStatus, emit, hout,
        harea, truthy, hst, hbtn, enableSpeechBtn, clearInterval, hu]

/-- C3: on a page with the speech elements, after a start that the server
accepts, if the polls are answered one by one with `is_recognizing = true` for
every payload of `ps` and then with `is_recognizing = false`, the effects are:
the two status lines of the start, then for every payload of `ps` one status
request and one write of 'Listening... Speak now.', then one status request and
one write of 'Recognition Complete. Press Start to go again.'.  At the end the
recognized-text region shows the final `recognized_text` (or '...'), no timer
is active, the start button is enabled, no request is in flight and no timer
can fire, so no further status request is issued. -/
theorem speech_completion_detection (pg : Page) (dom : Dom)
    (hbtn : pg.startSpeechToSignBtn = true) (hst : pg.speechRecognitionStatus = true)
    (hout : pg.recognizedTextOutput = true) (harea : pg.signDisplayArea = true)
    (body : Option String)
    (ps : List SpeechStatus) (hps : ∀ p ∈ ps, p.is_recognizing = true)
    (q : SpeechStatus) (hq : q.is_recognizing = false) :
    (let s := run pg (pageLoad dom)
        ([.startSpeechToSign, .response (.startRecognition (some (true, body)))] ++
          pollRounds 1 ps ++ [.tick 1, .response (.status (some q))])
     s.log = [.statusWrite "Connecting to Speech Server..." false,
              .fetch "POST" (API_URL ++ "/start_recognition"),
              .statusWrite "Listening... Please speak now." false] ++
        repeatLog [.fetch "GET" (API_URL ++ "/status"),
          .statusWrite "Listening... Speak now." false] ps.length ++
        [.fetch "GET" (API_URL ++ "/status"),
         .statusWrite "Recognition Complete. Press Start to go again." false] ∧
     s.dom.statusText = "Recognition Complete. Press Start to go again." ∧
     s.dom.recognizedText = orDefault q.recognized_text "..." ∧
     List.count (.statusWrite "Listening... Speak now." false) s.log = ps.length ∧
     List.count (.statusWrite "Recognition Complete. Press Start to go again." false) s.log
       = 1 ∧
     List.count (.fetch "GET" (API_URL ++ "/status")) s.log = ps.length + 1 ∧
     s.timers = [] ∧ s.dom.speechBtnDisabled = false ∧ quiescent s = true ∧
     ∀ h, step pg s (.tick h) = s) := by
  intro s
  have h0 : (run pg (pageLoad dom)
      [.startSpeechToSign, .response (.startRecognition (some (true, body)))]).timers
        = [⟨1, 500, .pollSpeech⟩] := by
    simp [run, step, startSpeechToSign, startSpeechToSign_resume, updateStatus, emit, hbtn, hst,
      pollSpeechRecognition, pageLoad, clearInterval, setInterval]
  have h0p : (run pg (pageLoad dom)
      [.startSpeechToSign, .response (.startRecognition (some (true, body)))]).pollInterval
        = some 1 := by
    simp [run, step, startSpeechToSign, startSpeechToSign_resume, updateStatus, emit, hbtn, hst,
      pollSpeechRecognition, pageLoad, clearInterval, setInterval]
  have h0f : (run pg (pageLoad dom)
      [.startSpeechToSign, .response (.startRecognition (some (true, body)))]).inflight
        = ⟨0, 0, 0, 0, 0⟩ := by
    simp [run, step, startSpeechToSign, startSpeechToSign_resume, updateStatus, emit, hbtn, hst,
      pollSpeechRecognition, pageLoad, clearInterval, setInterval]
  have h0l : (run pg (pageLoad dom)
      [.startSpeechToSign, .response (.startRecognition (some (true, body)))]).log
        = [.statusWrite "Connecting to Speech Server..." false,
              .fetch "POST" (API_URL ++ "/start_recognition"),
              .statusWrite "Listening... Please speak now." false] := by
    simp [run, step, startSpeechToSign, startSpeechToSign_resume, updateStatus, emit, hbtn, hst,
      pollSpeechRecognition, pageLoad, clearInterval, setInterval]
  obtain ⟨i1, i2, i3, _, i5⟩ := pollRounds_in_progress pg 1 hout harea hst ps hps _ h0
  obtain ⟨c1, c2, c3, c4, c5, c6⟩ := pollRound_complete pg 1 hbtn hout harea hst q hq _
    (i1.trans h0) (i2.trans h0p)
  have hs : s = run pg (run pg (run pg (pageLoad dom)
      [.startSpeechToSign, .response (.startRecognition (some (true, body)))])
      (pollRounds 1 ps)) [.tick 1, .response (.status (some q))] := by
    simp only [s, run_append]
  rw [hs]
  have hlog := c6
  rw [i5, h0l] at hlog
  refine ⟨?_, c4, c5, ?_, ?_, ?_, c1, c3, ?_, ?_⟩
  · rw [hlog]
  · rw [hlog]
    simp [List.count_append, count_repeatLog, API_URL]
  · rw [hlog]
    simp [List.count_append, count_repeatLog, API_URL]
  · rw [hlog]
    simp [List.count_append, count_repeatLog, API_URL]
  · simp [quiescent, c2, i3, h0f]
  · intro h
    simp [step, c1]

/-- C3 at the scripted case: two readings in progress, then the final one. -/
theorem speech_completion_detection_two_then_done :
    fullPage.startSpeechToSignBtn = true ∧ fullPage.speechRecognitionStatus = true ∧
    fullPage.recognizedTextOutput = true ∧ fullPage.signDisplayArea = true ∧
    (∀ p ∈ [(⟨true, some "good", some "good", none⟩ : SpeechStatus),
            ⟨true, some "good morning", some "morning", some "static/morning.png"⟩],
        p.is_recognizing = true) ∧
    List.count (.statusWrite "Listening... Speak now." false)
      (run fullPage (pageLoad freshDom)
        ([.startSpeechToSign, .response (.startRecognition (some (true, none)))] ++
          pollRounds 1 [⟨true, some "good", some "good", none⟩,
            ⟨true, some "good morning", some "morning", some "static/morning.png"⟩] ++
          [.tick 1, .response (.status (some ⟨false, some "good morning", none, none⟩))])).log
      = 2 :=
  ⟨rfl, rfl, rfl, rfl, by decide,
   (speech_completion_detection fullPage freshDom rfl rfl rfl rfl none
      [⟨true, some "good", some "good", none⟩,
       ⟨true, some "good morning", some "morning", some "static/morning.png"⟩]
      (by decide) ⟨false, some "good morning", none, none⟩ rfl).2.2.2.1⟩

/-! ## C4: the sign controller polls until a poll fails -/

theorem fetchRecognizedString_resume_success (pg : Page) (d : SignStatus) (s : State) :
    (fetchRecognizedString_resume pg (some d) s).timers = s.timers ∧
    (fetchRecognizedString_resume pg (some d) s).recognitionLoop = s.recognitionLoop ∧
    (fetchRecognizedString_resume pg (some d) s).pollInterval = s.pollInterval ∧
    (fetchRecognizedString_resume pg (some d) s).nextTimer = s.nextTimer ∧
    (fetchRecognizedString_resume pg (some d) s).inflight = s.inflight ∧
    (fetchRecognizedString_resume pg (some d) s).log = s.log ∧
    (fetchRecognizedString_resume pg (some d) s).dom.startInferenceDisabled
      = s.dom.startInferenceDisabled ∧
    (fetchRecognizedString_resume pg (some d) s).dom.stopInferenceDisabled
      = s.dom.stopInferenceDisabled ∧
    (fetchRecognizedString_resume pg (some d) s).dom.speechBtnDisabled
      = s.dom.speechBtnDisabled := by
  simp only [fetchRecognizedString_resume]
  split <;> split <;> simp

theorem fetchRound_success (pg : Page) (h : Nat) (d : SignStatus)
    (s : State) (hs : s.timers = [⟨h, 50, .fetchRecognizedString⟩]) :
    (run pg s [.tick h, .response (.recognizedString (some d))]).timers = s.timers ∧
    (run pg s [.tick h, .response (.recognizedString (some d))]).recognitionLoop
      = s.recognitionLoop ∧
    (run pg s [.tick h, .response (.recognizedString (some d))]).inflight = s.inflight ∧
    (run pg s [.tick h, .response (.recognizedString (some d))]).dom.startInferenceDisabled
      = s.dom.startInferenceDisabled ∧
    (run pg s [.tick h, .response (.recognizedString (some d))]).dom.stopInferenceDisabled
      = s.dom.stopInferenceDisabled ∧
    (run pg s [.tick h, .response (.recognizedString (some d))]).log = s.log ++
      [.fetch "GET" (INFERENCE_API_URL ++ "/recognized_string")] := by
  have hstep : run pg s [.tick h, .response (.recognizedString (some d))] =
      fetchRecognizedString_resume pg (some d)
        (emit (.fetch "GET" (INFERENCE_API_URL ++ "/recognized_string")) s) := by
    simp [run, step, hs, fetchRecognizedString_tick, emit]
  rw [hstep]
  obtain ⟨a1, a2, _, _, a5, a6, a7, a8, _⟩ := fetchRecognizedString_resume_success pg d
    (emit (.fetch "GET" (INFERENCE_API_URL ++ "/recognized_string")) s)
  refine ⟨a1, a2, a5, a7, a8, ?_⟩
  rw [a6]; rfl

theorem fetchRounds_success (pg : Page) (h : Nat) (ps : List SignStatus) :
    ∀ s : State, s.timers = [⟨h, 50, .fetchRecognizedString⟩] →
      (run pg s (fetchRounds h ps)).timers = s.timers ∧
      (run pg s (fetchRounds h ps)).recognitionLoop = s.recognitionLoop ∧
      (run pg s (fetchRounds h ps)).inflight = s.inflight ∧
      (run pg s (fetchRounds h ps)).dom.startInferenceDisabled = s.dom.startInferenceDisabled ∧
      (run pg s (fetchRounds h ps)).dom.stopInferenceDisabled = s.dom.stopInferenceDisabled ∧
      (run pg s (fetchRounds h ps)).log = s.log ++
        repeatLog [.fetch "GET" (INFERENCE_API_URL ++ "/recognized_string")] ps.length := by
  induction ps with
  | nil => intro s _; simp [fetchRounds, run, repeatLog]
  | cons d ds ih =>
    intro s hs
    obtain ⟨h1, h2, h3, h4, h5, h6⟩ := fetchRound_success pg h d s hs
    obtain ⟨i1, i2, i3, i4, i5, i6⟩ :=
      ih (run pg s [.tick h, .response (.recognizedString (some d))]) (h1.trans hs)
    have hrun : run pg s (fetchRounds h (d :: ds)) =
        run pg (run pg s [.tick h, .response (.recognizedString (some d))])
          (fetchRounds h ds) := rfl
    rw [hrun]
    refine ⟨i1.trans h1, i2.trans h2, i3.trans h3, i4.trans h4, i5.trans h5, ?_⟩
    rw [i6, h6]
    simp [repeatLog]

theorem fetchRound_failure (pg : Page) (h : Nat)
    (hstart : pg.startInferenceBtn = true) (hstop : pg.stopInferenceBtn = true)
    (s : State) (hs : s.timers = [⟨h, 50, .fetchRecognizedString⟩])
    (hr : s.recognitionLoop = some h) :
    (run pg s [.tick h, .response (.recognizedString none)]).timers = [] ∧
    (run pg s [.tick h, .response (.recognizedString none)]).dom.startInferenceDisabled
      = false ∧
    (run pg s [.tick h, .response (.recognizedString none)]).dom.stopInferenceDisabled
      = true ∧
    (run pg s [.tick h, .response (.recognizedString none)]).log = s.log ++
      [.fetch "GET" (INFERENCE_API_URL ++ "/recognized_string"),
       .consoleError "Error fetching recognized string. Server may have stopped:"] := by
  simp [run, step, hs, hr, fetchRecognizedString_tick, fetchRecognizedString_resume, emit,
    hstart, hstop, clearInterval]

/-- C4: on a page with both inference buttons, a start that the server accepts
creates one timer of `fetchRecognizedString` with a period of 50 ms.  While the
polls are answered with a body, whatever the payloads `ps`, the timer stays
active, the start button stays disabled and the stop button enabled, and every
tick issues one `GET /recognized_string`.  When the next poll (number
`ps.length + 1`) fails, no timer is left, the start button is enabled, the stop
button disabled, and no timer can fire, so no later poll is issued.  In every
state a poll answered with a body leaves timers, `recognitionLoop` and both
buttons unchanged, and a failed poll removes the timer `recognitionLoop` refers
to, enables the start button and disables the stop button. -/
theorem sign_polling_until_failure (pg : Page) (dom : Dom)
    (hstart : pg.startInferenceBtn = true) (hstop : pg.stopInferenceBtn = true)
    (ps : List SignStatus) :
    (let started := run pg (pageLoad dom) [.startInference, .response (.startInference true)]
     let polled := run pg started (fetchRounds 1 ps)
     let failed := run pg polled [.tick 1, .response (.recognizedString none)]
     started.timers = [⟨1, 50, .fetchRecognizedString⟩] ∧
     polled.timers = started.timers ∧
     polled.dom.startInferenceDisabled = true ∧ polled.dom.stopInferenceDisabled = false ∧
     polled.log = started.log ++
       repeatLog [.fetch "GET" (INFERENCE_API_URL ++ "/recognized_string")] ps.length ∧
     failed.timers = [] ∧
     failed.dom.startInferenceDisabled = false ∧ failed.dom.stopInferenceDisabled = true ∧
     List.count (.fetch "GET" (INFERENCE_API_URL ++ "/recognized_string")) failed.log
       = ps.length + 1 ∧
     (∀ h, step pg failed (.tick h) = failed)) ∧
    (∀ (s : State) (d : SignStatus),
      (fetchRecognizedString_resume pg (some d) s).timers = s.timers ∧
      (fetchRecognizedString_resume pg (some d) s).recognitionLoop = s.recognitionLoop ∧
      (fetchRecognizedString_resume pg (some d) s).dom.startInferenceDisabled
        = s.dom.startInferenceDisabled ∧
      (fetchRecognizedString_resume pg (some d) s).dom.stopInferenceDisabled
        = s.dom.stopInferenceDisabled) ∧
    (∀ s : State,
      (fetchRecognizedString_resume pg none s).timers
        = s.timers.filter (fun t => s.recognitionLoop != some t.id) ∧
      (fetchRecognizedString_resume pg none s).dom.startInferenceDisabled = false ∧
      (fetchRecognizedString_resume pg none s).dom.stopInferenceDisabled = true) := by
  refine ⟨?_, ?_, ?_⟩
  rotate_left 2
  · intro s
    simp [fetchRecognizedString_resume, emit, hstart, hstop, clearInterval_eq]
  · intro started polled failed
    have h0 : started.timers = [⟨1, 50, .fetchRecognizedString⟩] := by
      simp [started, run, step, startInference, startInference_resume, emit, hstart, hstop,
        pageLoad, setInterval]
    have h0r : started.recognitionLoop = some 1 := by
      simp [started, run, step, startInference, startInference_resume, emit, hstart, hstop,
        pageLoad, setInterval]
    have h0d : started.dom.startInferenceDisabled = true ∧
        started.dom.stopInferenceDisabled = false := by
      simp [started, run, step, startInference, startInference_resume, emit, hstart, hstop,
        pageLoad, setInterval]
    have h0l : started.log = [.fetch "POST" (INFERENCE_API_URL ++ "/start_inference"),
        .consoleLog "Inference thread requested on server."] := by
      simp [started, run, step, startInference, startInference_resume, emit, hstart, hstop,
        pageLoad, setInterval]
    obtain ⟨i1, i2, i3, i4, i5, i6⟩ := fetchRounds_success pg 1 ps started h0
    have hp : polled.timers = [⟨1, 50, .fetchRecognizedString⟩] := i1.trans h0
    have hpr : polled.recognitionLoop = some 1 := i2.trans h0r
    obtain ⟨f1, f2, f3, f4⟩ := fetchRound_failure pg 1 hstart hstop polled hp hpr
    refine ⟨h0, i1, i4.trans h0d.1, i5.trans h0d.2, i6, f1, f2, f3, ?_, ?_⟩
    · rw [f4, i6, h0l]
      simp [List.count_append, count_repeatLog, INFERENCE_API_URL]
    · intro h
      have f1' : failed.timers = [] := f1
      simp [step, f1']
  · intro s d
    obtain ⟨a1, a2, _, _, _, _, a7, a8, _⟩ := fetchRecognizedString_resume_success pg d s
    exact ⟨a1, a2, a7, a8⟩

/-- C4 at a concrete run: two answered polls, the third fails. -/
theorem sign_polling_until_failure_third_poll :
    fullPage.startInferenceBtn = true ∧ fullPage.stopInferenceBtn = true ∧
    (run fullPage (run fullPage
        (run fullPage (pageLoad freshDom) [.startInference, .response (.startInference true)])
        (fetchRounds 1 [⟨"A", none, none⟩, ⟨"AB", some "AB", some "/9j/4AAQ"⟩]))
      [.tick 1, .response (.recognizedString none)]).timers = [] :=
  ⟨rfl, rfl,
   (sign_polling_until_failure fullPage freshDom rfl rfl
      [⟨"A", none, none⟩, ⟨"AB", some "AB", some "/9j/4AAQ"⟩]).1.2.2.2.2.2.1⟩

/-! ## C10: responses that arrive after the loop was cancelled -/

/-- C10 (counterexample): the speech controller is stopped while a poll request
is in flight.  When that request completes with `is_recognizing = true` the
status text and the recognized text change although no timer is active; and
after a new start has created timer 2, the late completion of the old request
with `is_recognizing = false` cancels that new timer. -/
theorem straggler_poll_writes_and_cancels :
    (let stopped := step fullPage speechPollingState .stopSpeechToSign
     let late := step fullPage stopped (.response (.status (some ⟨true, some "hi", none, none⟩)))
     let restarted := run fullPage stopped
        [.startSpeechToSign, .response (.startRecognition (some (true, none)))]
     let late2 := step fullPage restarted
        (.response (.status (some ⟨false, some "hi", none, none⟩)))
     stopped.timers = [] ∧ stopped.dom.statusText = "Recognition Stopped." ∧
     late.dom.statusText = "Listening... Speak now." ∧ late.dom.recognizedText = "hi" ∧
     restarted.timers = [⟨2, 500, .pollSpeech⟩] ∧ late2.timers = []) := by
  set_option maxRecDepth 100000 in decide

/-- C10 (amended): the completion of a poll request is handled in the same way
in every state, whether or not the loop that issued it has been cancelled.  On
a page with the speech elements and the inference buttons: a speech reading
with `is_recognizing = true` and a sign poll answered with a body write display
regions only (status text, recognized string) and leave every timer, both
handle variables and the three buttons unchanged; a speech reading with
`is_recognizing = false` and a failed poll of either controller remove the
timer that the controller's handle variable refers to at that moment, create
none, and reset the buttons. -/
theorem poll_completion_in_any_state (pg : Page) (s : State)
    (hbtn : pg.startSpeechToSignBtn = true) (hst : pg.speechRecognitionStatus = true)
    (hout : pg.recognizedTextOutput = true) (harea : pg.signDisplayArea = true)
    (hstart : pg.startInferenceBtn = true) (hstop : pg.stopInferenceBtn = true) :
    (∀ d : SpeechStatus, d.is_recognizing = true →
      (pollSpeech_resume pg (some d) s).dom.statusText = "Listening... Speak now." ∧
      (pollSpeech_resume pg (some d) s).timers = s.timers ∧
      (pollSpeech_resume pg (some d) s).pollInterval = s.pollInterval ∧
      (pollSpeech_resume pg (some d) s).recognitionLoop = s.recognitionLoop ∧
      (pollSpeech_resume pg (some d) s).dom.speechBtnDisabled = s.dom.speechBtnDisabled) ∧
    (∀ d : SpeechStatus, d.is_recognizing = false →
      (pollSpeech_resume pg (some d) s).dom.statusText
        = "Recognition Complete. Press Start to go again." ∧
      (pollSpeech_resume pg (some d) s).timers
        = s.timers.filter (fun t => s.pollInterval != some t.id) ∧
      (pollSpeech_resume pg (some d) s).pollInterval = s.pollInterval ∧
      (pollSpeech_resume pg (some d) s).dom.speechBtnDisabled = false) ∧
    ((pollSpeech_resume pg none s).dom.statusText = "Connection lost. Server error." ∧
      (pollSpeech_resume pg none s).timers
        = s.timers.filter (fun t => s.pollInterval != some t.id) ∧
      (pollSpeech_resume pg none s).pollInterval = s.pollInterval ∧
      (pollSpeech_resume pg none s).dom.speechBtnDisabled = false) ∧
    (∀ d : SignStatus,
      (pg.recognizedStringDisplay = true →
        (fetchRecognizedString_resume pg (some d) s).dom.recognizedStringText
          = d.recognized_string) ∧
      (fetchRecognizedString_resume pg (some d) s).timers = s.timers ∧
      (fetchRecognizedString_resume pg (some d) s).recognitionLoop = s.recognitionLoop ∧
      (fetchRecognizedString_resume pg (some d) s).pollInterval = s.pollInterval ∧
      (fetchRecognizedString_resume pg (some d) s).dom.startInferenceDisabled
        = s.dom.startInferenceDisabled ∧
      (fetchRecognizedString_resume pg (some d) s).dom.stopInferenceDisabled
        = s.dom.stopInferenceDisabled) ∧
    ((fetchRecognizedString_resume pg none s).timers
        = s.timers.filter (fun t => s.recognitionLoop != some t.id) ∧
      (fetchRecognizedString_resume pg none s).recognitionLoop = s.recognitionLoop ∧
      (fetchRecognizedString_resume pg none s).dom.startInferenceDisabled = false ∧
      (fetchRecognizedString_resume pg none s).dom.stopInferenceDisabled = true) := by
  refine ⟨?_, ?_, ?_, ?_, ?_⟩
  · intro d hd
    obtain ⟨rec, txt, word, url⟩ := d
    simp only at hd
    subst hd
    rcases url with _ | u <;> rcases txt with _ | t
    all_goals first
      | (by_cases hu : u = "" <;> by_cases ht : t = "" <;>
          simp [pollSpeech_resume, updateStatus, emit, hout, harea, truthy, hst, hu, ht])
      | (by_cases hu : u = "" <;>
          simp [pollSpeech_resume, updateStatus, emit, hout, harea, truthy, hst, hu])
      | (by_cases ht : t = "" <;>
          simp [pollSpeech_resume, updateStatus, emit, hout, harea, truthy, hst, ht])
      | simp [pollSpeech_resume, updateStatus, emit, hout, harea, truthy, hst]
  · intro d hd
    obtain ⟨rec, txt, word, url⟩ := d
    simp only at hd
    subst hd
    rcases url with _ | u
    · simp [pollSpeech_resume, updateStatus, emit, hout, truthy, hst, hbtn, enableSpeechBtn,
        clearInterval_eq]
    · by_cases hu : u = "" <;>
        simp [pollSpeech_resume, updateStatus, emit, hout, harea, truthy, hst, hbtn,
          enableSpeechBtn, clearInterval_eq, hu]
  · simp [pollSpeech_resume, pollSpeech_catch, updateStatus, emit, hst, hbtn, enableSpeechBtn,
      clearInterval_eq]
  · intro d
    obtain ⟨a1, a2, a3, _, _, _, a7, a8, _⟩ := fetchRecognizedString_resume_success pg d s
    refine ⟨?_, a1, a2, a3, a7, a8⟩
    intro hdisp
    simp only [fetchRecognizedString_resume, hdisp]
    split <;> simp
  · simp [fetchRecognizedString_resume, emit, hstart, hstop, clearInterval_eq]

/-- C10 (amended) at the stopped speech controller: a late reading in progress
leaves the (empty) timer table as it is. -/
theorem poll_completion_in_any_state_after_stop :
    fullPage.startSpeechToSignBtn = true ∧ fullPage.speechRecognitionStatus = true ∧
    fullPage.recognizedTextOutput = true ∧ fullPage.signDisplayArea = true ∧
    fullPage.startInferenceBtn = true ∧ fullPage.stopInferenceBtn = true ∧
    (pollSpeech_resume fullPage (some ⟨true, some "hi", none, none⟩)
      (step fullPage speechPollingState .stopSpeechToSign)).timers
      = (step fullPage speechPollingState .stopSpeechToSign).timers :=
  ⟨rfl, rfl, rfl, rfl, rfl, rfl,
   ((poll_completion_in_any_state fullPage (step fullPage speechPollingState .stopSpeechToSign)
      rfl rfl rfl rfl rfl rfl).1 ⟨true, some "hi", none, none⟩ rfl).2.1⟩

/-! ## The control part: every step is one of the listed outcomes -/

theorem core_pollSpeech_catch (pg : Page) (s : State) :
    core (pollSpeech_catch pg s) = core (enableSpeechBtn pg (clearInterval s.pollInterval s)) := by
  cases h6 : pg.speechRecognitionStatus <;> cases h7 : pg.startSpeechToSignBtn <;>
    simp [core, pollSpeech_catch, updateStatus, emit, enableSpeechBtn, clearInterval_eq, h6, h7]

theorem core_pollSpeech_resume (pg : Page) (r : Option SpeechStatus) (s : State) :
    core (pollSpeech_resume pg r s) = core s ∨
    core (pollSpeech_resume pg r s)
      = core (enableSpeechBtn pg (clearInterval s.pollInterval s)) := by
  cases r with
  | none => right; exact core_pollSpeech_catch pg s
  | some d =>
    cases h1 : d.is_recognizing <;> cases h2 : pg.recognizedTextOutput <;>
      cases h3 : pg.signDisplayArea <;> cases h4 : truthy d.sign_image_url <;>
      cases h5 : truthy d.recognized_text <;> cases h6 : pg.speechRecognitionStatus <;>
      cases h7 : pg.startSpeechToSignBtn <;>
      simp [core, pollSpeech_resume, pollSpeech_catch, updateStatus, emit, enableSpeechBtn,
        clearInterval_eq, h1, h2, h3, h4, h5, h6, h7]

theorem filter_none_ne (l : List Timer) :
    l.filter (fun t => (none : Option Nat) != some t.id) = l := by
  rw [List.filter_eq_self]; intro a _; rfl

theorem core_step_mem (pg : Page) (s : State) (e : Event) :
    core (step pg s e) ∈ outcomes pg (core s) e := by
  cases e with
  | startSpeechToSign =>
    cases h1 : pg.startSpeechToSignBtn <;> cases h2 : pg.speechRecognitionStatus <;>
      simp [step, outcomes, core, startSpeechToSign, updateStatus, emit, h1, h2]
  | stopSpeechToSign =>
    cases h1 : pg.startSpeechToSignBtn <;> cases h2 : pg.speechRecognitionStatus <;>
      cases h3 : s.pollInterval <;>
      simp [step, outcomes, core, stopSpeechToSign, updateStatus, emit, enableSpeechBtn,
        Core.enableSpeech, Core.clear, clearInterval_eq, filter_none_ne, h1, h2, h3]
  | startInference =>
    cases h1 : pg.startInferenceBtn <;> cases h2 : pg.stopInferenceBtn <;>
      simp [step, outcomes, core, startInference, emit, h1, h2]
  | stopInference =>
    simp [step, outcomes, core, stopInference, emit, Core.clear, clearInterval_eq]
  | tick h =>
    simp only [step, outcomes, core]
    cases hf : s.timers.find? (fun t => t.id == h) with
    | none => simp [core]
    | some t =>
      cases hc : t.callback <;>
        simp [core, hc, pollSpeech_tick, fetchRecognizedString_tick, emit]
  | response r =>
    cases r with
    | startRecognition r =>
      by_cases h0 : s.inflight.startRecognition = 0
      · simp [step, outcomes, core, h0]
      · cases h2 : pg.speechRecognitionStatus <;> rcases r with _ | ⟨_ | _, err⟩ <;>
          simp [step, outcomes, core, h0, startSpeechToSign_resume, updateStatus, emit,
            pollSpeechRecognition, setInterval, clearInterval_eq, Core.pollStarted, Core.clear, h2]
    | status r =>
      by_cases h0 : s.inflight.status = 0
      · simp [step, outcomes, core, h0]
      · have hc := core_pollSpeech_resume pg r
          { s with inflight := { s.inflight with status := s.inflight.status - 1 } }
        have h0c : ¬ (core s).inflight.status = 0 := h0
        simp only [step, outcomes]
        rw [if_neg h0, if_neg h0c]
        rcases hc with hc | hc
        · rw [hc]; simp [core]
        · rw [hc]
          cases h1 : pg.startSpeechToSignBtn <;>
            simp [core, enableSpeechBtn, Core.enableSpeech, Core.clear, clearInterval_eq, h1]
    | startInference ok =>
      by_cases h0 : s.inflight.startInference = 0
      · simp [step, outcomes, core, h0]
      · cases ok <;>
          simp [step, outcomes, core, h0, startInference_resume, emit, setInterval,
            Core.inferenceStarted]
    | recognizedString r =>
      by_cases h0 : s.inflight.recognizedString = 0
      · simp [step, outcomes, core, h0]
      · cases r with
        | none =>
          cases h1 : pg.startInferenceBtn <;> cases h2 : pg.stopInferenceBtn <;>
            simp [step, outcomes, core, h0, fetchRecognizedString_resume, emit, clearInterval_eq,
              Core.fetchFailed, Core.clear, h1, h2]
        | some d =>
          cases h1 : pg.recognizedStringDisplay <;> cases h2 : pg.OpenCVFrame <;>
            cases h3 : truthy d.opencv_frame <;>
            simp [step, outcomes, core, h0, fetchRecognizedString_resume, h1, h2, h3]
    | stopInference b =>
      by_cases h0 : s.inflight.stopInference = 0
      · simp [step, outcomes, core, h0]
      · cases b <;> cases h1 : pg.startInferenceBtn <;> cases h2 : pg.stopInferenceBtn <;>
          simp [step, outcomes, core, h0, stopInference_resume, emit, Core.stopSettled, h1, h2]


/-- Handle bookkeeping that holds in every reachable state: handles are below
the handle counter, and an active timer whose handle is stored in a module
variable was created by that variable's controller. -/
structure WF (c : Core) : Prop where
  fresh : ∀ t ∈ c.timers, t.id < c.nextTimer
  pollFresh : ∀ h, c.pollInterval = some h → h < c.nextTimer
  loopFresh : ∀ h, c.recognitionLoop = some h → h < c.nextTimer
  pollKind : ∀ t ∈ c.timers, c.pollInterval = some t.id → t.callback = .pollSpeech
  loopKind : ∀ t ∈ c.timers, c.recognitionLoop = some t.id →
    t.callback = .fetchRecognizedString

theorem WF.of_fields {c c' : Core} (w : WF c) (h1 : c'.pollInterval = c.pollInterval)
    (h2 : c'.recognitionLoop = c.recognitionLoop) (h3 : c'.timers = c.timers)
    (h4 : c'.nextTimer = c.nextTimer) : WF c' := by
  constructor
  · rw [h3, h4]; exact w.fresh
  · rw [h1, h4]; exact w.pollFresh
  · rw [h2, h4]; exact w.loopFresh
  · rw [h1, h3]; exact w.pollKind
  · rw [h2, h3]; exact w.loopKind

theorem WF.clear {c : Core} (w : WF c) (h : Option Nat) : WF (c.clear h) := by
  constructor
  · intro t ht; exact w.fresh t (List.mem_of_mem_filter ht)
  · exact w.pollFresh
  · exact w.loopFresh
  · intro t ht; exact w.pollKind t (List.mem_of_mem_filter ht)
  · intro t ht; exact w.loopKind t (List.mem_of_mem_filter ht)

theorem WF.pollStarted {c : Core} (w : WF c) : WF c.pollStarted := by
  have w1 := w.clear c.pollInterval
  constructor
  · intro t ht
    simp only [Core.pollStarted, List.mem_append, List.mem_singleton] at ht
    rcases ht with ht | ht
    · exact Nat.lt_succ_of_lt (w1.fresh t ht)
    · subst ht; exact Nat.lt_succ_self _
  · intro h hh
    simp only [Core.pollStarted, Option.some.injEq] at hh
    subst hh; exact Nat.lt_succ_self _
  · intro h hh; exact Nat.lt_succ_of_lt (w.loopFresh h hh)
  · intro t ht hh
    simp only [Core.pollStarted, List.mem_append, List.mem_singleton] at ht
    simp only [Core.pollStarted, Option.some.injEq] at hh
    rcases ht with ht | ht
    · have := w1.fresh t ht
      simp only [Core.clear] at this
      omega
    · subst ht; rfl
  · intro t ht hh
    simp only [Core.pollStarted, List.mem_append, List.mem_singleton] at ht
    rcases ht with ht | ht
    · exact w1.loopKind t ht hh
    · subst ht
      have := w.loopFresh _ hh
      simp only at this
      omega

theorem WF.inferenceStarted {c : Core} (w : WF c) : WF c.inferenceStarted := by
  constructor
  · intro t ht
    simp only [Core.inferenceStarted, List.mem_append, List.mem_singleton] at ht
    rcases ht with ht | ht
    · exact Nat.lt_succ_of_lt (w.fresh t ht)
    · subst ht; exact Nat.lt_succ_self _
  · intro h hh; exact Nat.lt_succ_of_lt (w.pollFresh h hh)
  · intro h hh
    simp only [Core.inferenceStarted, Option.some.injEq] at hh
    subst hh; exact Nat.lt_succ_self _
  · intro t ht hh
    simp only [Core.inferenceStarted, List.mem_append, List.mem_singleton] at ht
    rcases ht with ht | ht
    · exact w.pollKind t ht hh
    · subst ht
      have := w.pollFresh _ hh
      simp only at this
      omega
  · intro t ht hh
    simp only [Core.inferenceStarted, List.mem_append, List.mem_singleton] at ht
    simp only [Core.inferenceStarted, Option.some.injEq] at hh
    rcases ht with ht | ht
    · have := w.fresh t ht
      omega
    · subst ht; rfl

theorem WF.dropPoll {c : Core} (w : WF c) : WF { c with pollInterval := none } := by
  constructor
  · exact w.fresh
  · intro h hh; simp at hh
  · exact w.loopFresh
  · intro t _ hh; simp at hh
  · exact w.loopKind

theorem WF.enableSpeech {c : Core} (w : WF c) (pg : Page) : WF (Core.enableSpeech pg c) := by
  unfold Core.enableSpeech
  split
  · exact w.of_fields rfl rfl rfl rfl
  · exact w

theorem WF.fetchFailed {c : Core} (w : WF c) (pg : Page) : WF (c.fetchFailed pg) := by
  have w1 := w.clear c.recognitionLoop
  unfold Core.fetchFailed
  simp only
  split
  · exact w1
  · split
    · exact w1.of_fields rfl rfl rfl rfl
    · exact w1.of_fields rfl rfl rfl rfl

theorem WF.stopSettled {c : Core} (w : WF c) (pg : Page) : WF (c.stopSettled pg) := by
  unfold Core.stopSettled
  simp only
  split <;> split <;> first | exact w | exact w.of_fields rfl rfl rfl rfl

theorem WF_outcomes (pg : Page) (c c' : Core) (e : Event) (w : WF c)
    (h : c' ∈ outcomes pg c e) : WF c' := by
  cases e with
  | startSpeechToSign =>
    simp only [outcomes] at h
    split at h <;> simp only [List.mem_singleton] at h <;> subst h
    · exact w.of_fields rfl rfl rfl rfl
    · exact w
  | stopSpeechToSign =>
    simp only [outcomes, List.mem_singleton] at h
    subst h
    exact ((w.clear c.pollInterval).enableSpeech pg).dropPoll
  | startInference =>
    simp only [outcomes] at h
    split at h <;> simp only [List.mem_singleton] at h <;> subst h
    · exact w.of_fields rfl rfl rfl rfl
    · exact w
  | stopInference =>
    simp only [outcomes, List.mem_singleton] at h
    subst h
    exact (w.clear c.recognitionLoop).of_fields rfl rfl rfl rfl
  | tick n =>
    simp only [outcomes] at h
    split at h
    · split at h <;> simp only [List.mem_singleton] at h <;> subst h <;>
        exact w.of_fields rfl rfl rfl rfl
    · simp only [List.mem_singleton] at h; subst h; exact w
  | response r =>
    cases r with
    | startRecognition r =>
      simp only [outcomes] at h
      split at h
      · simp only [List.mem_singleton] at h; subst h; exact w
      · simp only [List.mem_cons, List.mem_singleton, List.not_mem_nil, or_false] at h
        rcases h with h | h <;> subst h
        · apply WF.pollStarted; exact w.of_fields rfl rfl rfl rfl
        · exact w.of_fields rfl rfl rfl rfl
    | status r =>
      simp only [outcomes] at h
      split at h
      · simp only [List.mem_singleton] at h; subst h; exact w
      · simp only [List.mem_cons, List.mem_singleton, List.not_mem_nil, or_false] at h
        rcases h with h | h <;> subst h
        · exact w.of_fields rfl rfl rfl rfl
        · apply WF.enableSpeech; apply WF.clear; exact w.of_fields rfl rfl rfl rfl
    | startInference ok =>
      simp only [outcomes] at h
      split at h
      · simp only [List.mem_singleton] at h; subst h; exact w
      · simp only [List.mem_cons, List.mem_singleton, List.not_mem_nil, or_false] at h
        rcases h with h | h <;> subst h
        · apply WF.inferenceStarted; exact w.of_fields rfl rfl rfl rfl
        · exact w.of_fields rfl rfl rfl rfl
    | recognizedString r =>
      simp only [outcomes] at h
      split at h
      · simp only [List.mem_singleton] at h; subst h; exact w
      · simp only [List.mem_cons, List.mem_singleton, List.not_mem_nil, or_false] at h
        rcases h with h | h <;> subst h
        · exact w.of_fields rfl rfl rfl rfl
        · apply WF.fetchFailed; exact w.of_fields rfl rfl rfl rfl
    | stopInference b =>
      simp only [outcomes] at h
      split at h
      · simp only [List.mem_singleton] at h; subst h; exact w
      · simp only [List.mem_singleton] at h; subst h
        apply WF.stopSettled; exact w.of_fields rfl rfl rfl rfl

theorem WF_pageLoad (dom : Dom) : WF (core (pageLoad dom)) := by
  constructor <;> simp [core, pageLoad]

theorem WF_run (pg : Page) (evs : List Event) :
    ∀ s : State, WF (core s) → WF (core (run pg s evs)) := by
  induction evs with
  | nil => intro s w; exact w
  | cons e es ih =>
    intro s w
    exact ih (step pg s e) (WF_outcomes pg _ _ e w (core_step_mem pg s e))

/-! ## C8: the controllers share no state -/

theorem filter_and_clear_other (cb : Callback) (h : Option Nat) (l : List Timer)
    (hk : ∀ t ∈ l, h = some t.id → t.callback ≠ cb) :
    l.filter (fun t => t.callback == cb && h != some t.id)
      = l.filter (fun t => t.callback == cb) := by
  apply List.filter_congr
  intro t ht
  by_cases hc : t.callback = cb
  · have : h ≠ some t.id := fun hh => hk t ht hh hc
    simp [hc, this]
  · simp [hc]

theorem stopSpeechToSign_eq (pg : Page) (s : State) :
    stopSpeechToSign pg s = updateStatus pg "Recognition Stopped." false
      (enableSpeechBtn pg { (clearInterval s.pollInterval s) with pollInterval := none }) := by
  obtain ⟨pi, rl, ts, nt, fl, dom, lg⟩ := s
  cases pi <;> simp [stopSpeechToSign, clearInterval]

theorem signView_step_speech (pg : Page) (s : State) (e : Event) (w : WF (core s))
    (he : Event.controller s e = some .speech) : signView (step pg s e) = signView s := by
  have hf := filter_and_clear_other .fetchRecognizedString s.pollInterval s.timers
    (fun t ht hh => by rw [w.pollKind t ht hh]; decide)
  cases e with
  | startSpeechToSign =>
    cases h1 : pg.startSpeechToSignBtn <;> cases h2 : pg.speechRecognitionStatus <;>
      simp [step, signView, timersOf, startSpeechToSign, updateStatus, emit, h1, h2]
  | stopSpeechToSign =>
    simp only [step, stopSpeechToSign_eq]
    cases h1 : pg.startSpeechToSignBtn <;> cases h2 : pg.speechRecognitionStatus <;>
      simp [signView, timersOf, updateStatus, emit, enableSpeechBtn,
        clearInterval_eq, h1, h2, List.filter_filter, hf]
  | startInference => simp [Event.controller] at he
  | stopInference => simp [Event.controller] at he
  | tick h =>
    simp only [Event.controller] at he
    simp only [step]
    cases hfind : s.timers.find? (fun t => t.id == h) with
    | none => rfl
    | some t =>
      rw [hfind] at he
      cases hc : t.callback with
      | pollSpeech => simp [hc, signView, timersOf, pollSpeech_tick, emit]
      | fetchRecognizedString => simp [hc] at he
  | response r =>
    cases r with
    | startRecognition r =>
      by_cases h0 : s.inflight.startRecognition = 0
      · simp [step, h0]
      · cases h2 : pg.speechRecognitionStatus <;> rcases r with _ | ⟨_ | _, err⟩ <;>
          simp [step, signView, timersOf, h0, startSpeechToSign_resume, updateStatus, emit,
            pollSpeechRecognition, setInterval, clearInterval_eq, h2, List.filter_filter, hf]
    | status r =>
      by_cases h0 : s.inflight.status = 0
      · simp [step, h0]
      · cases r with
        | none =>
          cases h6 : pg.speechRecognitionStatus <;> cases h7 : pg.startSpeechToSignBtn <;>
            simp [step, signView, timersOf, h0, pollSpeech_resume, pollSpeech_catch,
              updateStatus, emit, enableSpeechBtn, clearInterval_eq, h6, h7,
              List.filter_filter, hf]
        | some d =>
          cases h1 : d.is_recognizing <;> cases h2 : pg.recognizedTextOutput <;>
            cases h3 : pg.signDisplayArea <;> cases h4 : truthy d.sign_image_url <;>
            cases h5 : truthy d.recognized_text <;> cases h6 : pg.speechRecognitionStatus <;>
            cases h7 : pg.startSpeechToSignBtn <;>
            simp [step, signView, timersOf, h0, pollSpeech_resume, pollSpeech_catch,
              updateStatus, emit, enableSpeechBtn, clearInterval_eq, h1, h2, h3, h4, h5, h6, h7,
              List.filter_filter, hf]
    | startInference ok => simp [Event.controller] at he
    | recognizedString r => simp [Event.controller] at he
    | stopInference b => simp [Event.controller] at he


theorem speechView_step_sign (pg : Page) (s : State) (e : Event) (w : WF (core s))
    (he : Event.controller s e = some .sign) : speechView (step pg s e) = speechView s := by
  have hf := filter_and_clear_other .pollSpeech s.recognitionLoop s.timers
    (fun t ht hh => by rw [w.loopKind t ht hh]; decide)
  cases e with
  | startSpeechToSign => simp [Event.controller] at he
  | stopSpeechToSign => simp [Event.controller] at he
  | startInference =>
    cases h1 : pg.startInferenceBtn <;> cases h2 : pg.stopInferenceBtn <;>
      simp [step, speechView, timersOf, startInference, emit, h1, h2]
  | stopInference =>
    simp [step, speechView, timersOf, stopInference, emit, clearInterval_eq,
      List.filter_filter, hf]
  | tick h =>
    simp only [Event.controller] at he
    simp only [step]
    cases hfind : s.timers.find? (fun t => t.id == h) with
    | none => rfl
    | some t =>
      rw [hfind] at he
      cases hc : t.callback with
      | pollSpeech => simp [hc] at he
      | fetchRecognizedString =>
        simp [hc, speechView, timersOf, fetchRecognizedString_tick, emit]
  | response r =>
    cases r with
    | startRecognition r => simp [Event.controller] at he
    | status r => simp [Event.controller] at he
    | startInference ok =>
      by_cases h0 : s.inflight.startInference = 0
      · simp [step, h0]
      · cases ok <;>
          simp [step, speechView, timersOf, h0, startInference_resume, emit, setInterval]
    | recognizedString r =>
      by_cases h0 : s.inflight.recognizedString = 0
      · simp [step, h0]
      · cases r with
        | none =>
          cases h1 : pg.startInferenceBtn <;> cases h2 : pg.stopInferenceBtn <;>
            simp [step, speechView, timersOf, h0, fetchRecognizedString_resume, emit,
              clearInterval_eq, h1, h2, List.filter_filter, hf]
        | some d =>
          cases h1 : pg.recognizedStringDisplay <;> cases h2 : pg.OpenCVFrame <;>
            cases h3 : truthy d.opencv_frame <;>
            simp [step, speechView, timersOf, h0, fetchRecognizedString_resume, h1, h2, h3]
    | stopInference b =>
      by_cases h0 : s.inflight.stopInference = 0
      · simp [step, h0]
      · cases b <;> cases h1 : pg.startInferenceBtn <;> cases h2 : pg.stopInferenceBtn <;>
          simp [step, speechView, timersOf, h0, stopInference_resume, emit, h1, h2]

theorem signView_updateStatus (pg : Page) (m : String) (b : Bool) (s : State) :
    signView (updateStatus pg m b s) = signView s := by
  cases h : pg.speechRecognitionStatus <;> simp [signView, timersOf, updateStatus, emit, h]

/-- C8: in every state reached from page load by any sequence of events, an
event of the speech controller (`startSpeechToSign`, `stopSpeechToSign`, a
tick of the speech poll timer, the arrival of a `/start_recognition` or
`/status` response, whatever its content) leaves the state of the sign
controller unchanged, and an event of the sign controller (`startInference`,
`stopInference`, a tick of `fetchRecognizedString`, the arrival of a
`/start_inference`, `/recognized_string` or `/stop_inference` response) leaves
the state of the speech controller unchanged; `updateStatus` leaves the sign
controller unchanged. -/
theorem controllers_share_no_state (pg : Page) (dom : Dom) (evs : List Event) (e : Event) :
    (Event.controller (run pg (pageLoad dom) evs) e = some .speech →
      signView (step pg (run pg (pageLoad dom) evs) e) = signView (run pg (pageLoad dom) evs)) ∧
    (Event.controller (run pg (pageLoad dom) evs) e = some .sign →
      speechView (step pg (run pg (pageLoad dom) evs) e)
        = speechView (run pg (pageLoad dom) evs)) ∧
    (∀ (m : String) (b : Bool),
      signView (updateStatus pg m b (run pg (pageLoad dom) evs))
        = signView (run pg (pageLoad dom) evs)) := by
  have w := WF_run pg evs (pageLoad dom) (WF_pageLoad dom)
  exact ⟨signView_step_speech pg _ e w, speechView_step_sign pg _ e w,
    fun m b => signView_updateStatus pg m b _⟩

/-- C8 at a concrete run: both controllers are polling and a speech poll
fails; the sign controller keeps its timer and its buttons. -/
theorem controllers_share_no_state_speech_failure :
    Event.controller
      (run fullPage (pageLoad freshDom)
        [.startInference, .response (.startInference true), .startSpeechToSign,
         .response (.startRecognition (some (true, none))), .tick 2])
      (.response (.status none)) = some .speech ∧
    signView (step fullPage
      (run fullPage (pageLoad freshDom)
        [.startInference, .response (.startInference true), .startSpeechToSign,
         .response (.startRecognition (some (true, none))), .tick 2])
      (.response (.status none)))
      = signView (run fullPage (pageLoad freshDom)
        [.startInference, .response (.startInference true), .startSpeechToSign,
         .response (.startRecognition (some (true, none))), .tick 2]) :=
  ⟨rfl,
   (controllers_share_no_state fullPage freshDom
      [.startInference, .response (.startInference true), .startSpeechToSign,
       .response (.startRecognition (some (true, none))), .tick 2]
      (.response (.status none))).1 rfl⟩

/-! ## C2: the start button is disabled exactly while polling -/

theorem ofKind_clear_shape (cb : Callback) (h : Option Nat) (l : List Timer)
    (hs : ∀ t ∈ ofKind cb l, h = some t.id) :
    ofKind cb (l.filter (fun t => h != some t.id)) = [] := by
  simp only [ofKind, List.filter_filter, List.filter_eq_nil_iff]
  intro t ht
  by_cases hc : t.callback = cb
  · have := hs t (by simp [ofKind, ht, hc])
    simp [hc, this]
  · simp [hc]

theorem ofKind_clear_other (cb : Callback) (h : Option Nat) (l : List Timer)
    (hk : ∀ t ∈ l, h = some t.id → t.callback ≠ cb) :
    ofKind cb (l.filter (fun t => h != some t.id)) = ofKind cb l := by
  simp only [ofKind, List.filter_filter]
  exact filter_and_clear_other cb h l hk

theorem ofKind_append_same (cb : Callback) (l : List Timer) (n p : Nat) :
    ofKind cb (l ++ [⟨n, p, cb⟩]) = ofKind cb l ++ [⟨n, p, cb⟩] := by
  simp [ofKind, List.filter_append]

theorem ofKind_append_other (cb cb' : Callback) (l : List Timer) (n p : Nat) (h : cb' ≠ cb) :
    ofKind cb (l ++ [⟨n, p, cb'⟩]) = ofKind cb l := by
  simp [ofKind, List.filter_append, h]

theorem ofKind_of_find (cb : Callback) (l : List Timer) (n : Nat) (t : Timer)
    (h : l.find? (fun t => t.id == n) = some t) (hc : t.callback = cb) : ofKind cb l ≠ [] := by
  have hm : t ∈ ofKind cb l := by
    simp [ofKind, List.mem_of_find?_eq_some h, hc]
  exact List.ne_nil_of_mem hm

theorem WF.loop_ne_speech {c : Core} (w : WF c) :
    ∀ t ∈ c.timers, c.recognitionLoop = some t.id → t.callback ≠ .pollSpeech := by
  intro t ht hh; rw [w.loopKind t ht hh]; decide

theorem WF.poll_ne_sign {c : Core} (w : WF c) :
    ∀ t ∈ c.timers, c.pollInterval = some t.id → t.callback ≠ .fetchRecognizedString := by
  intro t ht hh; rw [w.pollKind t ht hh]; decide

theorem SpeechInv.congrSpeech {pg : Page} {c c' : Core} (hi : SpeechInv pg c)
    (h1 : c'.pollInterval = c.pollInterval)
    (h2 : ofKind .pollSpeech c'.timers = ofKind .pollSpeech c.timers)
    (h3 : c'.inflight.startRecognition = c.inflight.startRecognition)
    (h4 : c'.inflight.status = c.inflight.status)
    (h5 : c'.speechBtnDisabled = c.speechBtnDisabled) : SpeechInv pg c' := by
  constructor
  · rw [h1, h2]; exact hi.shape
  · rw [h2, h3, h4, h5]; exact hi.absent
  · rw [h2, h3, h4, h5]; exact hi.starting
  · rw [h2, h3, h5]; exact hi.settled

theorem SignInv.congrSign {pg : Page} {c c' : Core} (hi : SignInv pg c)
    (h1 : c'.recognitionLoop = c.recognitionLoop)
    (h2 : ofKind .fetchRecognizedString c'.timers = ofKind .fetchRecognizedString c.timers)
    (h3 : c'.inflight.startInference = c.inflight.startInference)
    (h4 : c'.inflight.recognizedString = c.inflight.recognizedString)
    (h5 : c'.inflight.stopInference = c.inflight.stopInference)
    (h6 : c'.startInferenceDisabled = c.startInferenceDisabled) : SignInv pg c' := by
  constructor
  · rw [h1, h2]; exact hi.shape
  · rw [h2, h3, h4, h6]; exact hi.absent
  · rw [h2, h3, h5, h6]; exact hi.starting
  · rw [h2, h3, h5, h6]; exact hi.settled

theorem SignInv_of_speech_outcome (pg : Page) (c c' : Core) (e : Event) (w : WF c)
    (hi : SignInv pg c) (h : c' ∈ outcomes pg c e)
    (he : e = .startSpeechToSign ∨ e = .stopSpeechToSign ∨
      (∃ r, e = .response (.startRecognition r)) ∨ (∃ r, e = .response (.status r))) :
    SignInv pg c' := by
  have hclr := ofKind_clear_other .fetchRecognizedString c.pollInterval c.timers w.poll_ne_sign
  rcases he with he | he | ⟨r, he⟩ | ⟨r, he⟩ <;> subst he
  · simp only [outcomes] at h
    split at h <;> simp only [List.mem_singleton] at h <;> subst h
    · exact hi.congrSign rfl rfl rfl rfl rfl rfl
    · exact hi
  · simp only [outcomes, List.mem_singleton] at h
    subst h
    refine hi.congrSign ?_ ?_ ?_ ?_ ?_ ?_ <;>
      (simp only [Core.enableSpeech, Core.clear]; split <;> first | rfl | exact hclr)
  · simp only [outcomes] at h
    split at h
    · simp only [List.mem_singleton] at h; subst h; exact hi
    · simp only [List.mem_cons, List.mem_singleton, List.not_mem_nil, or_false] at h
      rcases h with h | h <;> subst h
      · refine hi.congrSign rfl ?_ rfl rfl rfl rfl
        simp only [Core.pollStarted, Core.clear]
        rw [ofKind_append_other _ _ _ _ _ (by decide)]
        exact hclr
      · exact hi.congrSign rfl rfl rfl rfl rfl rfl
  · simp only [outcomes] at h
    split at h
    · simp only [List.mem_singleton] at h; subst h; exact hi
    · simp only [List.mem_cons, List.mem_singleton, List.not_mem_nil, or_false] at h
      rcases h with h | h <;> subst h
      · exact hi.congrSign rfl rfl rfl rfl rfl rfl
      · refine hi.congrSign ?_ ?_ ?_ ?_ ?_ ?_ <;>
          (simp only [Core.enableSpeech, Core.clear]; split <;> first | rfl | exact hclr)


theorem SpeechInv_of_sign_outcome (pg : Page) (c c' : Core) (e : Event) (w : WF c)
    (hi : SpeechInv pg c) (h : c' ∈ outcomes pg c e)
    (he : e = .startInference ∨ e = .stopInference ∨
      (∃ r, e = .response (.startInference r)) ∨ (∃ r, e = .response (.recognizedString r)) ∨
      (∃ r, e = .response (.stopInference r))) :
    SpeechInv pg c' := by
  have hclr := ofKind_clear_other .pollSpeech c.recognitionLoop c.timers w.loop_ne_speech
  rcases he with he | he | ⟨r, he⟩ | ⟨r, he⟩ | ⟨r, he⟩ <;> subst he
  · simp only [outcomes] at h
    split at h <;> simp only [List.mem_singleton] at h <;> subst h
    · exact hi.congrSpeech rfl rfl rfl rfl rfl
    · exact hi
  · simp only [outcomes, List.mem_singleton] at h
    subst h
    exact hi.congrSpeech rfl hclr rfl rfl rfl
  · simp only [outcomes] at h
    split at h
    · simp only [List.mem_singleton] at h; subst h; exact hi
    · simp only [List.mem_cons, List.mem_singleton, List.not_mem_nil, or_false] at h
      rcases h with h | h <;> subst h
      · refine hi.congrSpeech rfl ?_ rfl rfl rfl
        simp only [Core.inferenceStarted]
        exact ofKind_append_other _ _ _ _ _ (by decide)
      · exact hi.congrSpeech rfl rfl rfl rfl rfl
  · simp only [outcomes] at h
    split at h
    · simp only [List.mem_singleton] at h; subst h; exact hi
    · simp only [List.mem_cons, List.mem_singleton, List.not_mem_nil, or_false] at h
      rcases h with h | h <;> subst h
      · exact hi.congrSpeech rfl rfl rfl rfl rfl
      · refine hi.congrSpeech ?_ ?_ ?_ ?_ ?_ <;>
          (simp only [Core.fetchFailed, Core.clear]; split <;> first | rfl | exact hclr |
            (split <;> first | rfl | exact hclr))
  · simp only [outcomes] at h
    split at h
    · simp only [List.mem_singleton] at h; subst h; exact hi
    · simp only [List.mem_singleton] at h; subst h
      refine hi.congrSpeech ?_ ?_ ?_ ?_ ?_ <;>
        (simp only [Core.stopSettled]; split <;> split <;> rfl)

theorem Inv_of_tick (pg : Page) (c c' : Core) (n : Nat)
    (hs : SpeechInv pg c) (hg : SignInv pg c) (h : c' ∈ outcomes pg c (.tick n)) :
    SpeechInv pg c' ∧ SignInv pg c' := by
  simp only [outcomes] at h
  split at h
  · rename_i t hfind
    split at h <;> rename_i hc <;> simp only [List.mem_singleton] at h <;> subst h
    · have hne := ofKind_of_find .pollSpeech c.timers n t hfind hc
      refine ⟨?_, hg.congrSign rfl rfl rfl rfl rfl rfl⟩
      constructor
      · exact hs.shape
      · intro hb; exact absurd (hs.absent hb).2.2.1 hne
      · intro h0; exact absurd (hs.starting h0).2.2.1 hne
      · exact hs.settled
    · have hne := ofKind_of_find .fetchRecognizedString c.timers n t hfind hc
      refine ⟨hs.congrSpeech rfl rfl rfl rfl rfl, ?_⟩
      constructor
      · exact hg.shape
      · intro hb; exact absurd (hg.absent hb).2.2.1 hne
      · exact hg.starting
      · exact hg.settled
  · simp only [List.mem_singleton] at h; subst h; exact ⟨hs, hg⟩


theorem SpeechInv_startSpeechToSign (pg : Page) (c c' : Core) (hs : SpeechInv pg c)
    (h1 : ofKind .pollSpeech c.timers = []) (h2 : c.inflight.startRecognition = 0)
    (h3 : c.inflight.status = 0) (h : c' ∈ outcomes pg c .startSpeechToSign) :
    SpeechInv pg c' := by
  simp only [outcomes] at h
  split at h <;> rename_i hb <;> simp only [List.mem_singleton] at h <;> subst h
  · constructor
    · exact hs.shape
    · intro hb'; rw [hb] at hb'; exact absurd hb' (by decide)
    · intro _; exact ⟨by simp [h2], h3, h1, rfl⟩
    · intro h0; simp at h0
  · exact hs

theorem SpeechInv_stopSpeechToSign (pg : Page) (c c' : Core) (hs : SpeechInv pg c)
    (h2 : c.inflight.startRecognition = 0) (h : c' ∈ outcomes pg c .stopSpeechToSign) :
    SpeechInv pg c' := by
  simp only [outcomes, List.mem_singleton] at h
  subst h
  have hclr := ofKind_clear_shape .pollSpeech c.pollInterval c.timers
    (fun t ht => (hs.shape t ht))
  have ht : ofKind .pollSpeech
      ({ (Core.enableSpeech pg (c.clear c.pollInterval)) with pollInterval := none }).timers
      = [] := by
    simp only [Core.enableSpeech, Core.clear]; split <;> exact hclr
  have hf : ({ (Core.enableSpeech pg (c.clear c.pollInterval)) with
      pollInterval := none }).inflight = c.inflight := by
    simp only [Core.enableSpeech, Core.clear]; split <;> rfl
  constructor
  · rw [ht]; intro t htm; simp at htm
  · intro hb
    obtain ⟨a1, a2, _, a4⟩ := hs.absent hb
    refine ⟨by rw [hf]; exact a1, by rw [hf]; exact a2, ht, ?_⟩
    simp only [Core.enableSpeech, Core.clear, hb]
    exact a4
  · intro h0; rw [hf] at h0; exact absurd h2 h0
  · intro _
    rw [ht]
    simp only [ne_eq, not_true_eq_false, iff_false, Bool.not_eq_true]
    cases hb : pg.startSpeechToSignBtn
    · simp only [Core.enableSpeech, Core.clear, hb]
      exact (hs.absent hb).2.2.2
    · simp [Core.enableSpeech, Core.clear, hb]

theorem SpeechInv_startRecognition (pg : Page) (c c' : Core) (r : Option (Bool × Option String))
    (hs : SpeechInv pg c) (h : c' ∈ outcomes pg c (.response (.startRecognition r))) :
    SpeechInv pg c' := by
  simp only [outcomes] at h
  split at h
  · simp only [List.mem_singleton] at h; subst h; exact hs
  · rename_i h0
    obtain ⟨a1, a2, a3, a4⟩ := hs.starting h0
    have hb : pg.startSpeechToSignBtn = true := by
      cases hb : pg.startSpeechToSignBtn
      · exact absurd (hs.absent hb).1 h0
      · rfl
    simp only [List.mem_cons, List.mem_singleton, List.not_mem_nil, or_false] at h
    rcases h with h | h <;> subst h
    · have ht : ofKind .pollSpeech
          (Core.pollStarted { c with inflight := { c.inflight with
            startRecognition := c.inflight.startRecognition - 1 } }).timers
          = [⟨c.nextTimer, 500, .pollSpeech⟩] := by
        simp only [Core.pollStarted, Core.clear]
        rw [ofKind_append_same, ofKind_clear_shape _ _ _ (fun t ht => hs.shape t ht)]
        rfl
      constructor
      · rw [ht]; intro t htm
        simp only [List.mem_singleton] at htm
        subst htm; rfl
      · intro hb'; rw [hb] at hb'; exact absurd hb' (by decide)
      · intro h1
        simp only [Core.pollStarted] at h1
        omega
      · intro _; rw [ht]
        simp only [Core.pollStarted, a4]
        simp
    · constructor
      · exact hs.shape
      · intro hb'; rw [hb] at hb'; exact absurd hb' (by decide)
      · intro h1
        simp only at h1
        omega
      · intro _
        simp only [a3]
        simp

theorem SpeechInv_status (pg : Page) (c c' : Core) (r : Option SpeechStatus)
    (hs : SpeechInv pg c) (h : c' ∈ outcomes pg c (.response (.status r))) :
    SpeechInv pg c' := by
  simp only [outcomes] at h
  split at h
  · simp only [List.mem_singleton] at h; subst h; exact hs
  · rename_i h0
    have hb : pg.startSpeechToSignBtn = true := by
      cases hb : pg.startSpeechToSignBtn
      · exact absurd (hs.absent hb).2.1 h0
      · rfl
    have hstart : c.inflight.startRecognition = 0 := by
      by_contra hne
      exact h0 (hs.starting hne).2.1
    simp only [List.mem_cons, List.mem_singleton, List.not_mem_nil, or_false] at h
    rcases h with h | h <;> subst h
    · constructor
      · exact hs.shape
      · intro hb'; rw [hb] at hb'; exact absurd hb' (by decide)
      · intro h1; exact absurd hstart h1
      · intro _; exact hs.settled hstart
    · constructor
      · simp only [Core.enableSpeech, Core.clear, hb, if_true]
        rw [ofKind_clear_shape _ _ _ (fun t ht => hs.shape t ht)]
        intro t htm; simp at htm
      · intro hb'; rw [hb] at hb'; exact absurd hb' (by decide)
      · intro h1
        simp only [Core.enableSpeech, Core.clear, hb, if_true] at h1
        exact absurd hstart h1
      · intro _
        simp only [Core.enableSpeech, Core.clear, hb, if_true]
        rw [ofKind_clear_shape _ _ _ (fun t ht => hs.shape t ht)]
        simp


theorem SignInv_startInference (pg : Page) (c c' : Core) (hg : SignInv pg c)
    (h1 : ofKind .fetchRecognizedString c.timers = []) (h2 : c.inflight.startInference = 0)
    (h3 : c.inflight.stopInference = 0) (h : c' ∈ outcomes pg c .startInference) :
    SignInv pg c' := by
  simp only [outcomes] at h
  split at h <;> rename_i hb <;> simp only [List.mem_singleton] at h <;> subst h
  · constructor
    · exact hg.shape
    · intro hb'; rw [hb] at hb'; exact absurd hb' (by decide)
    · intro _; exact ⟨by simp [h2], h3, h1, (hg.settled h2).2 h1 h3⟩
    · intro h0; simp at h0
  · exact hg

theorem SignInv_stopInference (pg : Page) (c c' : Core) (hg : SignInv pg c)
    (h2 : c.inflight.startInference = 0) (h : c' ∈ outcomes pg c .stopInference) :
    SignInv pg c' := by
  simp only [outcomes, List.mem_singleton] at h
  subst h
  have hclr := ofKind_clear_shape .fetchRecognizedString c.recognitionLoop c.timers
    (fun t ht => (hg.shape t ht))
  constructor
  · simp only [Core.clear]; rw [hclr]; intro t htm; simp at htm
  · intro hb
    obtain ⟨a1, a2, _, a4⟩ := hg.absent hb
    exact ⟨a1, a2, hclr, a4⟩
  · intro h0; exact absurd h2 h0
  · intro _
    refine ⟨fun hne => absurd hclr hne, fun _ h0 => ?_⟩
    simp at h0

theorem SignInv_startInferenceResponse (pg : Page) (c c' : Core) (ok : Bool)
    (hg : SignInv pg c) (h : c' ∈ outcomes pg c (.response (.startInference ok))) :
    SignInv pg c' := by
  simp only [outcomes] at h
  split at h
  · simp only [List.mem_singleton] at h; subst h; exact hg
  · rename_i h0
    obtain ⟨a1, a2, a3, a4⟩ := hg.starting h0
    have hb : (pg.startInferenceBtn && pg.stopInferenceBtn) = true := by
      cases hb : (pg.startInferenceBtn && pg.stopInferenceBtn)
      · exact absurd (hg.absent hb).1 h0
      · rfl
    simp only [List.mem_cons, List.mem_singleton, List.not_mem_nil, or_false] at h
    rcases h with h | h <;> subst h
    · have ht : ofKind .fetchRecognizedString
          (Core.inferenceStarted { c with inflight := { c.inflight with
            startInference := c.inflight.startInference - 1 } }).timers
          = [⟨c.nextTimer, 50, .fetchRecognizedString⟩] := by
        simp only [Core.inferenceStarted]
        rw [ofKind_append_same, a3]
        rfl
      constructor
      · rw [ht]; intro t htm
        simp only [List.mem_singleton] at htm
        subst htm; rfl
      · intro hb'; rw [hb] at hb'; exact absurd hb' (by decide)
      · intro h1
        simp only [Core.inferenceStarted] at h1
        omega
      · intro _
        refine ⟨fun _ => ⟨rfl, a2⟩, fun he => ?_⟩
        rw [ht] at he
        simp at he
    · constructor
      · exact hg.shape
      · intro hb'; rw [hb] at hb'; exact absurd hb' (by decide)
      · intro h1
        simp only at h1
        omega
      · intro _
        exact ⟨fun hne => absurd a3 hne, fun _ _ => a4⟩

theorem SignInv_recognizedString (pg : Page) (c c' : Core) (r : Option SignStatus)
    (hg : SignInv pg c) (h : c' ∈ outcomes pg c (.response (.recognizedString r))) :
    SignInv pg c' := by
  simp only [outcomes] at h
  split at h
  · simp only [List.mem_singleton] at h; subst h; exact hg
  · rename_i h0
    have hb : (pg.startInferenceBtn && pg.stopInferenceBtn) = true := by
      cases hb : (pg.startInferenceBtn && pg.stopInferenceBtn)
      · exact absurd (hg.absent hb).2.1 h0
      · rfl
    simp only [Bool.and_eq_true] at hb
    have hb' : (pg.startInferenceBtn && pg.stopInferenceBtn) ≠ false := by
      simp [hb.1, hb.2]
    simp only [List.mem_cons, List.mem_singleton, List.not_mem_nil, or_false] at h
    rcases h with h | h <;> subst h
    · constructor
      · exact hg.shape
      · intro hx; exact absurd hx hb'
      · exact hg.starting
      · exact hg.settled
    · have hclr := ofKind_clear_shape .fetchRecognizedString c.recognitionLoop c.timers
        (fun t ht => (hg.shape t ht))
      simp only [Core.fetchFailed, Core.clear, hb.1, hb.2, Bool.not_true, Bool.false_eq_true,
        if_false]
      constructor
      · rw [hclr]; intro t htm; simp at htm
      · intro hx; exact absurd hx hb'
      · intro h1
        obtain ⟨a1, a2, _, _⟩ := hg.starting h1
        exact ⟨a1, a2, hclr, rfl⟩
      · intro _
        exact ⟨fun hne => absurd hclr hne, fun _ _ => rfl⟩

theorem SignInv_stopInferenceResponse (pg : Page) (c c' : Core) (b : Bool)
    (hg : SignInv pg c) (h : c' ∈ outcomes pg c (.response (.stopInference b))) :
    SignInv pg c' := by
  simp only [outcomes] at h
  split at h
  · simp only [List.mem_singleton] at h; subst h; exact hg
  · rename_i h0
    simp only [List.mem_singleton] at h; subst h
    have hstart : c.inflight.startInference = 0 := by
      by_contra hne
      exact h0 (hg.starting hne).2.1
    have hnone : ofKind .fetchRecognizedString c.timers = [] := by
      by_contra hne
      exact h0 ((hg.settled hstart).1 hne).2
    have hT : (Core.stopSettled pg { c with inflight := { c.inflight with
        stopInference := c.inflight.stopInference - 1 } }).timers = c.timers := by
      simp only [Core.stopSettled]; split <;> split <;> rfl
    have hL : (Core.stopSettled pg { c with inflight := { c.inflight with
        stopInference := c.inflight.stopInference - 1 } }).recognitionLoop
        = c.recognitionLoop := by
      simp only [Core.stopSettled]; split <;> split <;> rfl
    have hF : (Core.stopSettled pg { c with inflight := { c.inflight with
        stopInference := c.inflight.stopInference - 1 } }).inflight
        = { c.inflight with stopInference := c.inflight.stopInference - 1 } := by
      simp only [Core.stopSettled]; split <;> split <;> rfl
    have hD : (Core.stopSettled pg { c with inflight := { c.inflight with
        stopInference := c.inflight.stopInference - 1 } }).startInferenceDisabled = false := by
      cases hb : pg.startInferenceBtn <;> cases hb2 : pg.stopInferenceBtn <;>
        simp only [Core.stopSettled, hb, hb2, if_true, if_false, Bool.false_eq_true]
      all_goals exact (hg.absent (by simp [hb])).2.2.2
    constructor
    · rw [hT, hL]; exact hg.shape
    · intro hx
      obtain ⟨a1, a2, a3, _⟩ := hg.absent hx
      rw [hT, hF]
      exact ⟨a1, a2, a3, hD⟩
    · intro h1; rw [hF] at h1; exact absurd hstart h1
    · intro _
      rw [hT]
      exact ⟨fun hne => absurd hnone hne, fun _ _ => hD⟩


theorem Inv_step (pg : Page) (s : State) (e : Event) (w : WF (core s))
    (hs : SpeechInv pg (core s)) (hg : SignInv pg (core s)) (ha : allowed s e = true) :
    SpeechInv pg (core (step pg s e)) ∧ SignInv pg (core (step pg s e)) := by
  have hm := core_step_mem pg s e
  cases e with
  | startSpeechToSign =>
    simp only [allowed, Bool.and_eq_true, List.isEmpty_iff, beq_iff_eq] at ha
    exact ⟨SpeechInv_startSpeechToSign pg _ _ hs ha.1.1 ha.1.2 ha.2 hm,
      SignInv_of_speech_outcome pg _ _ _ w hg hm (Or.inl rfl)⟩
  | stopSpeechToSign =>
    simp only [allowed, beq_iff_eq] at ha
    exact ⟨SpeechInv_stopSpeechToSign pg _ _ hs ha hm,
      SignInv_of_speech_outcome pg _ _ _ w hg hm (Or.inr (Or.inl rfl))⟩
  | startInference =>
    simp only [allowed, Bool.and_eq_true, List.isEmpty_iff, beq_iff_eq] at ha
    exact ⟨SpeechInv_of_sign_outcome pg _ _ _ w hs hm (Or.inl rfl),
      SignInv_startInference pg _ _ hg ha.1.1 ha.1.2 ha.2 hm⟩
  | stopInference =>
    simp only [allowed, beq_iff_eq] at ha
    exact ⟨SpeechInv_of_sign_outcome pg _ _ _ w hs hm (Or.inr (Or.inl rfl)),
      SignInv_stopInference pg _ _ hg ha hm⟩
  | tick n => exact Inv_of_tick pg _ _ n hs hg hm
  | response r =>
    cases r with
    | startRecognition r =>
      exact ⟨SpeechInv_startRecognition pg _ _ r hs hm,
        SignInv_of_speech_outcome pg _ _ _ w hg hm (Or.inr (Or.inr (Or.inl ⟨r, rfl⟩)))⟩
    | status r =>
      exact ⟨SpeechInv_status pg _ _ r hs hm,
        SignInv_of_speech_outcome pg _ _ _ w hg hm (Or.inr (Or.inr (Or.inr ⟨r, rfl⟩)))⟩
    | startInference ok =>
      exact ⟨SpeechInv_of_sign_outcome pg _ _ _ w hs hm (Or.inr (Or.inr (Or.inl ⟨ok, rfl⟩))),
        SignInv_startInferenceResponse pg _ _ ok hg hm⟩
    | recognizedString r =>
      exact ⟨SpeechInv_of_sign_outcome pg _ _ _ w hs hm
          (Or.inr (Or.inr (Or.inr (Or.inl ⟨r, rfl⟩)))),
        SignInv_recognizedString pg _ _ r hg hm⟩
    | stopInference b =>
      exact ⟨SpeechInv_of_sign_outcome pg _ _ _ w hs hm
          (Or.inr (Or.inr (Or.inr (Or.inr ⟨b, rfl⟩)))),
        SignInv_stopInferenceResponse pg _ _ b hg hm⟩

theorem Inv_run (pg : Page) (evs : List Event) :
    ∀ s : State, WF (core s) → SpeechInv pg (core s) → SignInv pg (core s) →
      disciplined pg s evs = true →
      SpeechInv pg (core (run pg s evs)) ∧ SignInv pg (core (run pg s evs)) := by
  induction evs with
  | nil => intro s _ hs hg _; exact ⟨hs, hg⟩
  | cons e es ih =>
    intro s w hs hg hd
    simp only [disciplined, Bool.and_eq_true] at hd
    obtain ⟨hs1, hg1⟩ := Inv_step pg s e w hs hg hd.1
    exact ih (step pg s e) (WF_outcomes pg _ _ e w (core_step_mem pg s e)) hs1 hg1 hd.2

theorem Inv_pageLoad (pg : Page) (dom : Dom) (h1 : dom.speechBtnDisabled = false)
    (h2 : dom.startInferenceDisabled = false) :
    SpeechInv pg (core (pageLoad dom)) ∧ SignInv pg (core (pageLoad dom)) := by
  refine ⟨?_, ?_⟩ <;> constructor <;> simp [core, pageLoad, ofKind, h1, h2]

theorem ofKind_ne_nil_iff (cb : Callback) (l : List Timer) :
    ofKind cb l ≠ [] ↔ ∃ t ∈ l, t.callback = cb := by
  simp [ofKind, List.filter_eq_nil_iff]

/-- C2 (counterexample): `stopSpeechToSign` is called while the start request is
in flight, then the request succeeds.  No request is pending, the speech poll
timer is active, and the start button is enabled. -/
theorem stop_during_start_leaves_button_enabled_while_polling :
    (let s := run fullPage (pageLoad freshDom)
        [.startSpeechToSign, .stopSpeechToSign,
         .response (.startRecognition (some (true, none)))]
     quiescent s = true ∧ s.timers = [⟨1, 500, .pollSpeech⟩] ∧
     s.dom.speechBtnDisabled = false ∧
     ¬ (s.dom.speechBtnDisabled = true ↔ ∃ t ∈ s.timers, t.callback = .pollSpeech)) := by
  decide

/-- C2 (amended): start from a freshly loaded page whose two start buttons are
enabled and run any sequence of calls, timer ticks and response arrivals in
which `startSpeechToSign` / `startInference` is called only while its
controller has no active timer and no request in flight (for the sign
controller: no start or stop request), and `stopSpeechToSign` /
`stopInference` only while no start request of its controller is in flight.
If no request is pending at the end, each controller's start button is
disabled exactly when that controller has an active poll timer. -/
theorem start_button_disabled_iff_polling (pg : Page) (dom : Dom) (evs : List Event)
    (h1 : dom.speechBtnDisabled = false) (h2 : dom.startInferenceDisabled = false)
    (hd : disciplined pg (pageLoad dom) evs = true)
    (hq : quiescent (run pg (pageLoad dom) evs) = true) :
    ((run pg (pageLoad dom) evs).dom.speechBtnDisabled = true ↔
      ∃ t ∈ (run pg (pageLoad dom) evs).timers, t.callback = .pollSpeech) ∧
    ((run pg (pageLoad dom) evs).dom.startInferenceDisabled = true ↔
      ∃ t ∈ (run pg (pageLoad dom) evs).timers, t.callback = .fetchRecognizedString) := by
  obtain ⟨hs0, hg0⟩ := Inv_pageLoad pg dom h1 h2
  obtain ⟨hs, hg⟩ := Inv_run pg evs (pageLoad dom) (WF_pageLoad dom) hs0 hg0 hd
  simp only [quiescent, Bool.and_eq_true, beq_iff_eq] at hq
  obtain ⟨⟨⟨⟨q1, _⟩, q3⟩, _⟩, q5⟩ := hq
  refine ⟨?_, ?_⟩
  · rw [← ofKind_ne_nil_iff]
    exact hs.settled q1
  · rw [← ofKind_ne_nil_iff]
    obtain ⟨g1, g2⟩ := hg.settled q3
    constructor
    · intro hdis
      by_contra hne
      have hnil : ofKind .fetchRecognizedString (core (run pg (pageLoad dom) evs)).timers
          = [] := hne
      have hen : (run pg (pageLoad dom) evs).dom.startInferenceDisabled = false := g2 hnil q5
      exact absurd (hdis.symm.trans hen) (by decide)
    · intro hne
      exact (g1 hne).1

/-- C2 (amended) at a concrete run: both controllers are started one after the
other and both start requests succeed. -/
theorem start_button_disabled_iff_polling_both_started :
    freshDom.speechBtnDisabled = false ∧ freshDom.startInferenceDisabled = false ∧
    disciplined fullPage (pageLoad freshDom)
      [.startSpeechToSign, .response (.startRecognition (some (true, none))),
       .startInference, .response (.startInference true)] = true ∧
    quiescent (run fullPage (pageLoad freshDom)
      [.startSpeechToSign, .response (.startRecognition (some (true, none))),
       .startInference, .response (.startInference true)]) = true ∧
    ((run fullPage (pageLoad freshDom)
      [.startSpeechToSign, .response (.startRecognition (some (true, none))),
       .startInference, .response (.startInference true)]).dom.speechBtnDisabled = true ↔
      ∃ t ∈ (run fullPage (pageLoad freshDom)
        [.startSpeechToSign, .response (.startRecognition (some (true, none))),
         .startInference, .response (.startInference true)]).timers,
        t.callback = .pollSpeech) :=
  ⟨rfl, rfl, by decide, by decide,
   (start_button_disabled_iff_polling fullPage freshDom
      [.startSpeechToSign, .response (.startRecognition (some (true, none))),
       .startInference, .response (.startInference true)] rfl rfl (by decide) (by decide)).1⟩

/-! ## Mutual exclusion of the speech controller -/

theorem SpeechOne.handle_eq {c : Core} (h : SpeechOne c) :
    ∀ t ∈ ofKind .pollSpeech c.timers, c.pollInterval = some t.id := by
  intro t ht
  rcases h with h | ⟨n, h1, h2⟩
  · rw [h] at ht; simp at ht
  · rw [h2] at ht
    simp only [List.mem_singleton] at ht
    subst ht; exact h1

theorem SpeechOne.transfer {c c' : Core} (h : SpeechOne c)
    (h1 : c'.pollInterval = c.pollInterval)
    (h2 : ofKind .pollSpeech c'.timers = ofKind .pollSpeech c.timers) : SpeechOne c' := by
  unfold SpeechOne
  rw [h1, h2]; exact h

theorem SpeechOne_outcomes (pg : Page) (c c' : Core) (e : Event) (w : WF c)
    (hp : SpeechOne c) (h : c' ∈ outcomes pg c e) : SpeechOne c' := by
  have hsp := ofKind_clear_shape .pollSpeech c.pollInterval c.timers hp.handle_eq
  have hsg := ofKind_clear_other .pollSpeech c.recognitionLoop c.timers w.loop_ne_speech
  cases e with
  | startSpeechToSign =>
    simp only [outcomes] at h
    split at h <;> simp only [List.mem_singleton] at h <;> subst h
    · exact hp.transfer rfl rfl
    · exact hp
  | stopSpeechToSign =>
    simp only [outcomes, List.mem_singleton] at h
    subst h
    left
    simp only [Core.enableSpeech, Core.clear]; split <;> exact hsp
  | startInference =>
    simp only [outcomes] at h
    split at h <;> simp only [List.mem_singleton] at h <;> subst h
    · exact hp.transfer rfl rfl
    · exact hp
  | stopInference =>
    simp only [outcomes, List.mem_singleton] at h
    subst h
    exact hp.transfer rfl hsg
  | tick n =>
    simp only [outcomes] at h
    split at h
    · split at h <;> simp only [List.mem_singleton] at h <;> subst h <;> exact hp.transfer rfl rfl
    · simp only [List.mem_singleton] at h; subst h; exact hp
  | response r =>
    cases r with
    | startRecognition r =>
      simp only [outcomes] at h
      split at h
      · simp only [List.mem_singleton] at h; subst h; exact hp
      · simp only [List.mem_cons, List.mem_singleton, List.not_mem_nil, or_false] at h
        rcases h with h | h <;> subst h
        · right
          refine ⟨c.nextTimer, rfl, ?_⟩
          simp only [Core.pollStarted, Core.clear]
          rw [ofKind_append_same, hsp]
          rfl
        · exact hp.transfer rfl rfl
    | status r =>
      simp only [outcomes] at h
      split at h
      · simp only [List.mem_singleton] at h; subst h; exact hp
      · simp only [List.mem_cons, List.mem_singleton, List.not_mem_nil, or_false] at h
        rcases h with h | h <;> subst h
        · exact hp.transfer rfl rfl
        · left
          simp only [Core.enableSpeech, Core.clear]; split <;> exact hsp
    | startInference ok =>
      simp only [outcomes] at h
      split at h
      · simp only [List.mem_singleton] at h; subst h; exact hp
      · simp only [List.mem_cons, List.mem_singleton, List.not_mem_nil, or_false] at h
        rcases h with h | h <;> subst h
        · refine hp.transfer rfl ?_
          simp only [Core.inferenceStarted]
          exact ofKind_append_other _ _ _ _ _ (by decide)
        · exact hp.transfer rfl rfl
    | recognizedString r =>
      simp only [outcomes] at h
      split at h
      · simp only [List.mem_singleton] at h; subst h; exact hp
      · simp only [List.mem_cons, List.mem_singleton, List.not_mem_nil, or_false] at h
        rcases h with h | h <;> subst h
        · exact hp.transfer rfl rfl
        · refine hp.transfer ?_ ?_ <;>
            (simp only [Core.fetchFailed, Core.clear]; split <;> first | rfl | exact hsg |
              (split <;> first | rfl | exact hsg))
    | stopInference b =>
      simp only [outcomes] at h
      split at h
      · simp only [List.mem_singleton] at h; subst h; exact hp
      · simp only [List.mem_singleton] at h; subst h
        refine hp.transfer ?_ ?_ <;> (simp only [Core.stopSettled]; split <;> split <;> rfl)

theorem SpeechOne_run (pg : Page) (evs : List Event) :
    ∀ s : State, WF (core s) → SpeechOne (core s) → SpeechOne (core (run pg s evs)) := by
  induction evs with
  | nil => intro s _ hp; exact hp
  | cons e es ih =>
    intro s w hp
    exact ih (step pg s e) (WF_outcomes pg _ _ e w (core_step_mem pg s e))
      (SpeechOne_outcomes pg _ _ e w hp (core_step_mem pg s e))

/-- Mutual exclusion holds for the speech controller: after every sequence of
events from page load at most one timer created by `pollSpeechRecognition` is
active. -/
theorem speech_at_most_one_timer (pg : Page) (dom : Dom) (evs : List Event) :
    (timersOf .pollSpeech (run pg (pageLoad dom) evs)).length ≤ 1 := by
  have h := SpeechOne_run pg evs (pageLoad dom) (WF_pageLoad dom) (Or.inl rfl)
  have he : timersOf .pollSpeech (run pg (pageLoad dom) evs)
      = ofKind .pollSpeech (core (run pg (pageLoad dom) evs)).timers := rfl
  rw [he]
  rcases h with h | ⟨n, _, h⟩ <;> rw [h] <;> simp

/-! ## After a stop: which timers are left -/

/-- In every state reached from page load, `stopSpeechToSign` leaves no speech
timer active. -/
theorem stopSpeechToSign_no_timer_active (pg : Page) (dom : Dom) (evs : List Event) :
    timersOf .pollSpeech (step pg (run pg (pageLoad dom) evs) .stopSpeechToSign) = [] := by
  have hp := SpeechOne_run pg evs (pageLoad dom) (WF_pageLoad dom) (Or.inl rfl)
  have hm := core_step_mem pg (run pg (pageLoad dom) evs) .stopSpeechToSign
  simp only [outcomes, List.mem_singleton] at hm
  have he : timersOf .pollSpeech (step pg (run pg (pageLoad dom) evs) .stopSpeechToSign)
      = ofKind .pollSpeech
          (core (step pg (run pg (pageLoad dom) evs) .stopSpeechToSign)).timers := rfl
  rw [he, hm]
  simp only [Core.enableSpeech, Core.clear]
  split <;> exact ofKind_clear_shape _ _ _ hp.handle_eq

/-- In a state where every active sign timer is the one `recognitionLoop` refers
to, `stopInference` leaves no sign timer active. -/
theorem stopInference_no_timer_active_of_tracked (pg : Page) (s : State)
    (h : ∀ t ∈ timersOf .fetchRecognizedString s, s.recognitionLoop = some t.id) :
    timersOf .fetchRecognizedString (step pg s .stopInference) = [] := by
  have ht : (step pg s .stopInference).timers
      = s.timers.filter (fun t => s.recognitionLoop != some t.id) := by
    simp [step, stopInference, emit, clearInterval_eq]
  have he : timersOf .fetchRecognizedString (step pg s .stopInference)
      = ofKind .fetchRecognizedString (step pg s .stopInference).timers := rfl
  rw [he, ht]
  exact ofKind_clear_shape _ _ _ h

end Glossa
